import Mathlib

set_option autoImplicit false
set_option linter.unusedSectionVars false

/-! Verification of the tunnels-to-bots gateway: connection/session
lifecycle, ownership-checked message routing, credential validation,
heartbeat/shutdown close codes, and the tunnel-process supervisor.  The
JavaScript/TypeScript sources are embedded shallowly: JS Map and Set become
insertion-ordered association lists, uuidv4 becomes a fresh-id counter,
Date values become naturals, and process/crypto effects become explicit
environment parameters. -/

namespace TunnelsToBots

/-- Strings of the JavaScript source are modelled as lists of characters,
so that parsing functions can be written by structural recursion. -/
abbrev Str := List Char

/-- Turn a Lean string literal into the character-list representation. -/
def str (s : String) : Str := s.toList

deriving instance DecidableEq for Except

section KeyedMapDefs

variable {K V : Type} [DecidableEq K]

/-- JavaScript Map.get: the entry stored under the key, if any.  JS maps keep
unique keys; lookup returns the first (hence only) matching entry. -/
def mlookup : List (K × V) → K → Option V
  | [], _ => none
  | (k0, v0) :: rest, k => if k0 = k then some v0 else mlookup rest k

/-- JavaScript Map.set: update the existing entry in place (keeping its
position in insertion order) or append a new entry. -/
def mset : List (K × V) → K → V → List (K × V)
  | [], k, v => [(k, v)]
  | (k0, v0) :: rest, k, v =>
    if k0 = k then (k0, v) :: rest else (k0, v0) :: mset rest k v

/-- JavaScript Map.delete: remove the entry stored under the key. -/
def mdel : List (K × V) → K → List (K × V)
  | [], _ => []
  | (k0, v0) :: rest, k => if k0 = k then rest else (k0, v0) :: mdel rest k

/-- The keys of a map, in insertion order. -/
def keys (l : List (K × V)) : List K := l.map Prod.fst

end KeyedMapDefs

/-- JavaScript Set.add: sets keep insertion order and never hold
duplicate membership. -/
def sadd {A : Type} [DecidableEq A] (s : List A) (x : A) : List A :=
  if x ∈ s then s else s ++ [x]

namespace SecureServer

/-- Accumulator splitter modelling the JavaScript String.split with a
one-character separator: splitAux sep s acc processes s, with acc holding the
characters of the current part in reverse. -/
def splitAux (sep : Char) : Str → Str → List Str
  | [], acc => [acc.reverse]
  | c :: cs, acc =>
    if c = sep then acc.reverse :: splitAux sep cs []
    else splitAux sep cs (c :: acc)

/-- The JavaScript expression apiKey.split with a one-character separator. -/
def splitOnChar (sep : Char) (s : Str) : List Str := splitAux sep s []

/-- Interleave the separator between parts; the inverse of splitting. -/
def joinParts (sep : Char) : List Str → Str
  | [] => []
  | [p] => p
  | p :: ps => p ++ sep :: joinParts sep ps

/-- The signature the secure server expects inside an API key: the first 16
characters of the hex digest of userId:secret.  The hash itself is modelled
by the uninterpreted function sha yielding the digest characters (ASCII). -/
def expectedSig (sha : Str → Str) (userId secret : Str) : Str :=
  (sha (userId ++ ':' :: secret)).take 16

/-- Body of validateApiKey of server-secure.js once the key has been split at
the underscores: exactly three parts, first literally t2b, non-empty userId
and signature, signature of length 16, and the constant-time buffer
comparison (which raises, hence yields null, on differing lengths). -/
def validateParts (sha : Str → Str) (secret : Str) : List Str → Option Str
  | [p0, userId, signature] =>
    if p0 ≠ str "t2b" then none
    else if userId = [] then none
    else if signature = [] then none
    else
      if signature.length ≠ 16 then none
      else if signature.length ≠ (expectedSig sha userId secret).length then none
      else if signature = expectedSig sha userId secret then some userId
      else none
  | _ => none

/-- Embeds validateApiKey of server-secure.js (lines 61-88): parse the
t2b-userId-signature shape and accept only when the presented signature
equals the recomputed truncated digest of userId:secret.  The only JS
dynamic check dropped is typeof apiKey being a string, which the type
already enforces; the empty string is falsy in JS, hence rejected first. -/
def validateApiKey (sha : Str → Str) (apiKey secret : Str) : Option Str :=
  if apiKey = [] then none
  else validateParts sha secret (splitOnChar '_' apiKey)

end SecureServer

/-- A bot record as stored by the bot registries of both server drafts:
id, owning user, name, type and status.  The nested config subfields
(system prompt, limits, etc) are touched by no claim and are elided. -/
structure Bot where
  id : Str
  userId : Str
  name : Str
  btype : Str
  status : Str
deriving Repr, DecidableEq

/-- The per-connection state both servers bolt onto the WebSocket handle:
connection id, authenticated user (null until the auth frame succeeds),
subscription set and activity clock; readyOpen models
ws.readyState === OPEN. -/
structure WsConn where
  id : Str
  userId : Option Str
  subscribedBots : List Str
  lastActivity : Nat
  readyOpen : Bool
deriving Repr, DecidableEq

/-- Error codes carried on wire error frames: the servers use numbers, the
message router uses symbolic strings. -/
inductive ErrCode where
  | num (n : Nat)
  | sym (s : Str)
deriving Repr, DecidableEq

/-- Outbound frame payloads, per frame type.  The timestamp field every
frame carries (always the sending clock) holds no information and is
elided; so are process uptime/memory figures in server status replies. -/
inductive OutData where
  | errorData (code : ErrCode) (message : Str)
  | pongData
  | authOkData (userId : Str) (sessionId : Str)
  | authErrorData (message : Str)
  | botsListData (bots : List Bot)
  | subscribedData (botId : Str)
  | unsubscribedData (botId : Str)
  | taskStatusData (taskId : Nat) (status : Str)
  | ackData (messageId : Nat)
  | connectionsData (count : Nat) (userCount : Nat)
  | serverStatusData (connections : Nat) (users : Nat)
  | statusTimeoutData
  | echoMessageData (id : Nat) (fromId : Str) (toId : Str) (text : Str)
deriving Repr, DecidableEq

/-- Observable actions a handler performs on the transport or towards the
bot side. -/
inductive Event where
  | sendFrame (ftype : Str) (d : OutData)
  | closeConn (code : Nat) (reason : Str)
  | pingSent
  | forwardToBot (botId : Str) (messageId : Nat)
  | forwardToUser (toUserId : Str) (messageId : Nat)
deriving Repr, DecidableEq

/-- sendFrame of both servers transmits only while the socket is open. -/
def sendOut (ws : WsConn) (e : Event) : List Event :=
  if ws.readyOpen then [e] else []

/-- sendError of both servers: an error frame with a numeric code. -/
def errorEvent (code : Nat) (message : Str) : Event :=
  Event.sendFrame (str "error") (OutData.errorData (ErrCode.num code) message)

/-- True for frames that refuse an operation: error and auth_error. -/
def isErrorEvent : Event → Bool
  | Event.sendFrame t _ => t = str "error" || t = str "auth_error"
  | _ => false

/-- The union of the inbound data fields the frame handlers destructure;
a JSON field that is absent is none.  (The optional frame id, echoed back
verbatim in some replies, is elided.) -/
structure FrameData where
  apiKey : Option Str
  token : Option Str
  toId : Option Str
  text : Option Str
  botId : Option Str
  channel : Option Str
  replyTo : Option Str
  title : Option Str
  description : Option Str
  priority : Option Str
  dueDate : Option Nat
  request : Option Str
deriving Repr, DecidableEq

/-- A frame with every data field absent. -/
def FrameData.empty : FrameData :=
  ⟨none, none, none, none, none, none, none, none, none, none, none, none⟩

/-- An inbound wire frame: type plus payload. -/
structure Frame where
  ftype : Str
  data : FrameData
deriving Repr, DecidableEq

/-- JS truthiness of an optional string field: undefined and the empty
string are falsy. -/
def strFalsy : Option Str → Bool
  | none => true
  | some s => s.isEmpty

namespace SecureServer

/-- The per-user isolation record of server-secure.js (getUserData):
the user's own bots plus id sets of sessions, tasks and connections.
Session and task uuids are naturals drawn from the server counter. -/
structure UserData where
  bots : List (Str × Bot)
  sessions : List Nat
  tasks : List Nat
  connections : List Str
deriving Repr, DecidableEq

/-- State of the secure server touched by its frame handlers: the global
bots map, the per-user isolation records and the uuid counter. -/
structure SecState where
  bots : List (Str × Bot)
  userData : List (Str × UserData)
  nextId : Nat
deriving Repr, DecidableEq

/-- Embeds getUserData of server-secure.js (lines 126-136): read the
per-user record, initialising an empty one first when absent (a state
change). -/
def getUserData (uid : Str) (st : SecState) : UserData × SecState :=
  match mlookup st.userData uid with
  | some d => (d, st)
  | none =>
    let d : UserData := ⟨[], [], [], []⟩
    (d, { st with userData := mset st.userData uid d })

/-- Embeds verifyBotOwnership of server-secure.js (lines 139-151): the bot
must exist, belong to the caller, and appear in the caller's own bot
list. -/
def verifyBotOwnership (uid botId : Str) (st : SecState) : Bool × SecState :=
  let r := getUserData uid st
  match mlookup r.2.bots botId with
  | none => (false, r.2)
  | some bot =>
    if bot.userId ≠ uid then (false, r.2)
    else ((mlookup r.1.bots botId).isSome, r.2)

/-- Embeds sanitize of server-secure.js (lines 117-123): drop angle
brackets and control characters, cap at 4096 characters. -/
def sanitize (s : Str) : Str :=
  (s.filter fun c =>
    c ≠ '<' ∧ c ≠ '>' ∧ ¬ (c.toNat ≤ 0x1f) ∧ c.toNat ≠ 0x7f).take 4096

/-- sanitize applied to a possibly-absent field (non-strings become the
empty string). -/
def sanitizeOpt : Option Str → Str
  | none => []
  | some s => sanitize s

/-- Embeds handleMessageFrame of server-secure.js (lines 397-434):
authentication check, missing-bot-id check, ownership check (one uniform
403 reply for a missing bot and for another user's bot), then the echo
reply and the delivery acknowledgment. -/
def handleMessageFrame (st : SecState) (ws : WsConn) (frame : Frame) :
    List Event × WsConn × SecState :=
  match ws.userId with
  | none => (sendOut ws (errorEvent 401 (str "Not authenticated")), ws, st)
  | some uid =>
    if strFalsy frame.data.toId then
      (sendOut ws (errorEvent 400 (str "Missing bot ID")), ws, st)
    else
      let botId := frame.data.toId.getD []
      let r := verifyBotOwnership uid botId st
      if ¬ r.1 then
        (sendOut ws (errorEvent 403 (str "Bot not found or access denied")),
          ws, r.2)
      else
        let msgId := r.2.nextId
        let st2 := { r.2 with nextId := r.2.nextId + 1 }
        let sanText := sanitizeOpt frame.data.text
        let echoText := if sanText = [] then [] else str "Echo: " ++ sanText
        (sendOut ws (Event.sendFrame (str "message")
            (OutData.echoMessageData msgId botId uid echoText)) ++
          sendOut ws (Event.sendFrame (str "message_ack")
            (OutData.ackData msgId)),
          ws, st2)

end SecureServer

namespace SessionManager

/-- A session record of the Session Manager (src/unnamed/part_002).  The
uuidv4 session identifiers are modelled as naturals drawn from a fresh-id
counter kept in the manager state; Date values are naturals (epoch ms). -/
structure Session where
  id : Nat
  userId : Str
  connectionIds : List Str
  createdAt : Nat
  lastActivityAt : Nat
deriving Repr, DecidableEq

/-- A task record stored by SessionManager.createTask.  Fields copied from a
frame payload are optional because JS destructuring passes undefined
through unchanged. -/
structure Task where
  id : Nat
  userId : Str
  botId : Option Str
  title : Option Str
  description : Option Str
  priority : Option Str
  status : Str
  createdAt : Nat
  dueDate : Option Nat
deriving Repr, DecidableEq

/-- The mutable fields of the SessionManager class: the sessions map, the
userId-to-sessionId index, the tasks map and per-user task index, plus the
counter supplying fresh uuids.  The cleanup sweep and the statistics
accessors are not needed by any claim and are not embedded. -/
structure SMState where
  sessions : List (Nat × Session)
  userSessions : List (Str × Nat)
  tasks : List (Nat × Task)
  userTasks : List (Str × List Nat)
  nextId : Nat
deriving Repr, DecidableEq

/-- Embeds SessionManager.createSession (part_002 lines 19-41): reuse the
session indexed under userId, adding the connection id to its set and
refreshing lastActivityAt; otherwise create a fresh session under a fresh
id.  Returns none exactly where the JS code would dereference undefined (a
userSessions entry pointing at a missing session), which is unreachable
from the initial state (see smInv_reachable). -/
def createSession (connectionId userId : Str) (now : Nat) (st : SMState) :
    Option (Session × SMState) :=
  match mlookup st.userSessions userId with
  | some sid =>
    match mlookup st.sessions sid with
    | some existing =>
      let upd := { existing with
        connectionIds := sadd existing.connectionIds connectionId,
        lastActivityAt := now }
      some (upd, { st with sessions := mset st.sessions sid upd })
    | none => none
  | none =>
    let sid := st.nextId
    let s : Session :=
      { id := sid, userId := userId, connectionIds := [connectionId],
        createdAt := now, lastActivityAt := now }
    some (s, { st with
      sessions := mset st.sessions sid s,
      userSessions := mset st.userSessions userId sid,
      nextId := st.nextId + 1 })

/-- The loop body of SessionManager.endSession: walk the sessions map in
insertion order; at the first session holding the connection id, delete the
id from its set, and either drop the whole session (returning its userId so
the userSessions index entry can be deleted) or keep the shrunk session. -/
def endSessionAux (connectionId : Str) :
    List (Nat × Session) → List (Nat × Session) × Option Str
  | [] => ([], none)
  | (sid, s) :: rest =>
    if connectionId ∈ s.connectionIds then
      let conns := s.connectionIds.erase connectionId
      if conns = [] then (rest, some s.userId)
      else ((sid, { s with connectionIds := conns }) :: rest, none)
    else
      let r := endSessionAux connectionId rest
      ((sid, s) :: r.1, r.2)

/-- Embeds SessionManager.endSession (part_002 lines 45-65). -/
def endSession (connectionId : Str) (st : SMState) : SMState :=
  let r := endSessionAux connectionId st.sessions
  { st with
    sessions := r.1,
    userSessions :=
      match r.2 with
      | some uid => mdel st.userSessions uid
      | none => st.userSessions }

/-- Embeds SessionManager.getSessionByConnection (part_002 lines 69-76). -/
def getSessionByConnection (connectionId : Str) (st : SMState) :
    Option Session :=
  st.sessions.findSome? fun p =>
    if connectionId ∈ p.2.connectionIds then some p.2 else none

/-- Embeds SessionManager.getSessionByUser (part_002 lines 80-86). -/
def getSessionByUser (userId : Str) (st : SMState) : Option Session :=
  match mlookup st.userSessions userId with
  | some sid => mlookup st.sessions sid
  | none => none

/-- Parameters of SessionManager.createTask. -/
structure TaskParams where
  userId : Str
  botId : Option Str
  title : Option Str
  description : Option Str
  priority : Option Str
  dueDate : Option Nat
deriving Repr, DecidableEq

/-- Embeds SessionManager.createTask (part_002 lines 106-143): store a new
pending task under a fresh id and index it under the owning user. -/
def createTask (params : TaskParams) (now : Nat) (st : SMState) :
    Task × SMState :=
  let taskId := st.nextId
  let task : Task :=
    { id := taskId, userId := params.userId, botId := params.botId,
      title := params.title, description := params.description,
      priority := params.priority, status := str "pending",
      createdAt := now, dueDate := params.dueDate }
  (task,
    { st with
      tasks := mset st.tasks taskId task,
      userTasks := mset st.userTasks params.userId
        (sadd ((mlookup st.userTasks params.userId).getD []) taskId),
      nextId := st.nextId + 1 })

/-- The SessionManager starts with empty maps. -/
def initialState : SMState := ⟨[], [], [], [], 0⟩

/-- A session-lifecycle call: createSession or endSession. -/
inductive SMOp where
  | create (connectionId userId : Str) (now : Nat)
  | endConn (connectionId : Str)
deriving Repr, DecidableEq

/-- Apply one lifecycle call to the manager state. -/
def applyOp : SMOp → SMState → Option SMState
  | SMOp.create c u t, st => (createSession c u t st).map Prod.snd
  | SMOp.endConn c, st => some (endSession c st)

/-- Apply a sequence of lifecycle calls. -/
def runOps : List SMOp → SMState → Option SMState
  | [], st => some st
  | op :: ops, st => (applyOp op st).bind (runOps ops)

/-- The mutual-consistency invariant of the sessions map and the
userSessions index: both maps have unique keys, session ids stay below the
fresh-id counter, every userSessions entry points at a stored session of
that same user with a non-empty connection set, and every stored session is
indexed under its user (hence each user has at most one session). -/
def SMInv (st : SMState) : Prop :=
  (keys st.sessions).Nodup ∧
  (keys st.userSessions).Nodup ∧
  (∀ sid ∈ keys st.sessions, sid < st.nextId) ∧
  (∀ uid sid, mlookup st.userSessions uid = some sid →
    ∃ s, mlookup st.sessions sid = some s ∧ s.userId = uid ∧
      s.connectionIds ≠ []) ∧
  (∀ sid s, mlookup st.sessions sid = some s →
    mlookup st.userSessions s.userId = some sid)

end SessionManager

namespace DistServer

/-- One stored API key of the AuthService table, indexed by key hash. -/
structure KeyInfo where
  userId : Str
  permissions : List Str
  name : Str
deriving Repr, DecidableEq

/-- Effectful primitives the dist server draws on: the SHA-256 hex digest
used by AuthService.hashKey, and jwt.verify reduced to the userId of a
successfully verified payload (none on any verification error).  Both are
uninterpreted. -/
structure AuthEnv where
  sha : Str → Str
  verifyJwt : Str → Option Str

/-- Server-side state the frame handlers of the dist draft
(dist/types.d.ts) touch: the BotRegistry maps, the SessionManager, and the
AuthService key table.  The SessionManager counter doubles as the
process-wide uuidv4 supply. -/
structure SrvState where
  bots : List (Str × Bot)
  userBots : List (Str × List Str)
  sm : SessionManager.SMState
  apiKeys : List (Str × KeyInfo)
deriving Repr, DecidableEq

/-- Embeds AuthService.extractUserIdFromKey (auth-service.ts lines
116-129): split at underscores and take the second part when there are at
least three. -/
def extractUserIdFromKey (key : Str) : Option Str :=
  let parts := SecureServer.splitOnChar '_' key
  if 3 ≤ parts.length then parts.get? 1 else none

/-- Embeds AuthService.validateApiKey (auth-service.ts lines 54-88): after
a length floor, accept a key stored in the hash table, or -- the
development path -- any key matching the t2b_ pattern of length at least
24, deriving the userId from the key itself with no signature
verification. -/
def authValidateApiKey (env : AuthEnv) (tbl : List (Str × KeyInfo))
    (apiKey : Str) : Option (Str × List Str) :=
  if apiKey = [] ∨ apiKey.length < 16 then none
  else
    match mlookup tbl (env.sha apiKey) with
    | some info => some (info.userId, info.permissions)
    | none =>
      if List.isPrefixOf (str "t2b_") apiKey ∧ 24 ≤ apiKey.length then
        match extractUserIdFromKey apiKey with
        | some uid =>
          if uid = [] then none
          else some (uid, [str "read", str "write", str "bots"])
        | none => none
      else none

/-- Embeds Server.getUserConnections (dist/types.d.ts lines 773-781). -/
def getUserConnections (conns : List (Str × WsConn)) (uid : Str) :
    List WsConn :=
  (conns.filter fun p => p.2.userId = some uid).map Prod.snd

/-- Embeds Server.getUniqueUserCount (dist/types.d.ts lines 785-793):
users with a truthy userId, deduplicated. -/
def getUniqueUserCount (conns : List (Str × WsConn)) : Nat :=
  (((conns.filterMap fun p => p.2.userId).filter
    fun u => ¬ u.isEmpty).dedup).length

/-- Embeds BotRegistry.getUserBots (dist draft): the user's bot ids mapped
through the registry, dropping dangling ids. -/
def getUserBots (st : SrvState) (uid : Str) : List Bot :=
  ((mlookup st.userBots uid).getD []).filterMap (mlookup st.bots)

/-- Embeds MessageRouter.isBotId (dist/message-router.js lines 141-144):
a bot_ name or a dashed 8-4-4-4-12 hex uuid. -/
def isUuidShape (s : Str) : Bool :=
  let parts := SecureServer.splitOnChar '-' s
  parts.map List.length = [8, 4, 4, 4, 12] &&
    parts.all fun p => p.all fun c =>
      c.isDigit || ('a' ≤ c ∧ c ≤ 'f') || ('A' ≤ c ∧ c ≤ 'F')

def isBotId (s : Str) : Bool :=
  List.isPrefixOf (str "bot_") s || isUuidShape s

/-- Embeds MessageRouter.route (dist/message-router.js lines 13-53):
validate from/to, draw a fresh message id, forward to the bot named by
botId, to the bot-looking target, or to the peer user, then acknowledge.
Any ownership information is never consulted.  (The second uuid inside the
message metadata is elided; the acknowledgment goes through the same
open-socket gate as every send.) -/
def route (st : SrvState) (senderWs : WsConn) (fromId : Str)
    (toId : Option Str) (botId : Option Str) :
    List Event × SrvState :=
  if fromId = [] ∨ strFalsy toId then
    (sendOut senderWs (Event.sendFrame (str "error")
      (OutData.errorData (ErrCode.sym (str "ROUTING_FAILED"))
        (str "Invalid message: missing from/to"))), st)
  else
    let msgId := st.sm.nextId
    let st2 := { st with sm := { st.sm with nextId := st.sm.nextId + 1 } }
    let ack := sendOut senderWs
      (Event.sendFrame (str "message_ack") (OutData.ackData msgId))
    if ¬ strFalsy botId then
      (Event.forwardToBot (botId.getD []) msgId :: ack, st2)
    else if isBotId (toId.getD []) then
      (Event.forwardToBot (toId.getD []) msgId :: ack, st2)
    else
      (Event.forwardToUser (toId.getD []) msgId :: ack, st2)

/-- Embeds Server.handleMessageFrame of the dist draft (dist/types.d.ts
lines 592-608): an authentication check, then straight to the router. -/
def handleMessageFrame (st : SrvState) (ws : WsConn) (frame : Frame) :
    List Event × WsConn × SrvState :=
  match ws.userId with
  | none => (sendOut ws (errorEvent 401 (str "Not authenticated")), ws, st)
  | some uid =>
    let r := route st ws uid frame.data.toId frame.data.botId
    (r.1, ws, r.2)

/-- Embeds Server.handleSubscribe of the dist draft (dist/types.d.ts lines
612-631): authentication check, then one uniform 403 refusal when the bot
is missing or owned by someone else. -/
def handleSubscribe (st : SrvState) (ws : WsConn) (frame : Frame) :
    List Event × WsConn × SrvState :=
  match ws.userId with
  | none => (sendOut ws (errorEvent 401 (str "Not authenticated")), ws, st)
  | some uid =>
    match frame.data.botId.bind (mlookup st.bots) with
    | none =>
      (sendOut ws (errorEvent 403 (str "Bot not found or access denied")),
        ws, st)
    | some bot =>
      if bot.userId ≠ uid then
        (sendOut ws (errorEvent 403 (str "Bot not found or access denied")),
          ws, st)
      else
        let ws2 := { ws with
          subscribedBots := sadd ws.subscribedBots (frame.data.botId.getD []) }
        (sendOut ws2 (Event.sendFrame (str "status")
          (OutData.subscribedData (frame.data.botId.getD []))), ws2, st)

/-- Embeds Server.handleUnsubscribe of the dist draft (dist/types.d.ts
lines 635-644): no authentication check at all. -/
def handleUnsubscribe (st : SrvState) (ws : WsConn) (frame : Frame) :
    List Event × WsConn × SrvState :=
  let botId := frame.data.botId.getD []
  let ws2 := { ws with subscribedBots := ws.subscribedBots.erase botId }
  (sendOut ws2 (Event.sendFrame (str "status")
    (OutData.unsubscribedData botId)), ws2, st)

/-- Embeds Server.handleTask of the dist draft (dist/types.d.ts lines
648-669): an authentication check, then the task is created and
acknowledged; no bot lookup and no ownership check appear anywhere in the
function. -/
def handleTask (now : Nat) (st : SrvState) (ws : WsConn) (frame : Frame) :
    List Event × WsConn × SrvState :=
  match ws.userId with
  | none => (sendOut ws (errorEvent 401 (str "Not authenticated")), ws, st)
  | some uid =>
    let r := SessionManager.createTask
      ⟨uid, frame.data.botId, frame.data.title, frame.data.description,
        frame.data.priority, frame.data.dueDate⟩ now st.sm
    (sendOut ws (Event.sendFrame (str "task_status")
        (OutData.taskStatusData r.1.id (str "pending"))),
      ws, { st with sm := r.2 })

/-- Embeds Server.handleStatusRequest of the dist draft (dist/types.d.ts
lines 673-714): connection counts for anyone, the caller's bots when
authenticated (silence otherwise), and a server status for full and for
any unrecognised request. -/
def handleStatusRequest (conns : List (Str × WsConn)) (st : SrvState)
    (ws : WsConn) (frame : Frame) : List Event × WsConn × SrvState :=
  if frame.data.request = some (str "connections") then
    (sendOut ws (Event.sendFrame (str "status")
      (OutData.connectionsData conns.length (getUniqueUserCount conns))),
      ws, st)
  else if frame.data.request = some (str "bots") then
    match ws.userId with
    | some uid =>
      (sendOut ws (Event.sendFrame (str "status")
        (OutData.botsListData (getUserBots st uid))), ws, st)
    | none => ([], ws, st)
  else
    (sendOut ws (Event.sendFrame (str "status")
      (OutData.serverStatusData conns.length (getUniqueUserCount conns))),
      ws, st)

/-- Embeds Server.handleAuth of the dist draft (dist/types.d.ts lines
504-588): validate the api key or token, refuse over the session limit,
attach the session (a crash inside createSession is caught and surfaces as
one generic auth_error), then acknowledge and push the bot list when
non-empty.  The connections map sees the userId assignment because the
stored handle is the same object. -/
def handleAuth (env : AuthEnv) (maxPerUser : Nat)
    (conns : List (Str × WsConn)) (now : Nat) (st : SrvState) (ws : WsConn)
    (frame : Frame) : List Event × WsConn × SrvState :=
  let afterAuth := fun (uid : Str) =>
    let ws2 : WsConn := { ws with userId := some uid }
    let conns2 := mset conns ws.id ws2
    if maxPerUser ≤ (getUserConnections conns2 uid).length then
      (sendOut ws2 (Event.sendFrame (str "auth_error")
        (OutData.authErrorData (str "Maximum concurrent sessions reached"))),
        ws2, st)
    else
      match SessionManager.createSession ws.id uid now st.sm with
      | none =>
        (sendOut ws2 (Event.sendFrame (str "auth_error")
          (OutData.authErrorData (str "Authentication failed"))), ws2, st)
      | some r =>
        let botList := getUserBots st uid
        (sendOut ws2 (Event.sendFrame (str "auth_ok")
            (OutData.authOkData uid ws.id)) ++
          (if 0 < botList.length then
            sendOut ws2 (Event.sendFrame (str "status")
              (OutData.botsListData botList))
          else []),
          ws2, { st with sm := r.2 })
  if ¬ strFalsy frame.data.apiKey then
    match authValidateApiKey env st.apiKeys (frame.data.apiKey.getD []) with
    | none =>
      (sendOut ws (Event.sendFrame (str "auth_error")
        (OutData.authErrorData (str "Invalid API key"))), ws, st)
    | some r => afterAuth r.1
  else if ¬ strFalsy frame.data.token then
    match env.verifyJwt (frame.data.token.getD []) with
    | none =>
      (sendOut ws (Event.sendFrame (str "auth_error")
        (OutData.authErrorData (str "Invalid token"))), ws, st)
    | some uid => afterAuth uid
  else
    (sendOut ws (Event.sendFrame (str "auth_error")
      (OutData.authErrorData (str "Authentication required"))), ws, st)

/-- Embeds Server.handleMessage of the dist draft (dist/types.d.ts lines
458-500): refresh the activity clock and dispatch on the frame type.
(A JSON parse failure, outside this structured model, is answered with a
400 before reaching the switch.) -/
def handleMessage (env : AuthEnv) (maxPerUser : Nat)
    (conns : List (Str × WsConn)) (now : Nat) (st : SrvState) (ws : WsConn)
    (frame : Frame) : List Event × WsConn × SrvState :=
  let ws1 : WsConn := { ws with lastActivity := now }
  if frame.ftype = str "auth" then
    handleAuth env maxPerUser conns now st ws1 frame
  else if frame.ftype = str "message" then
    handleMessageFrame st ws1 frame
  else if frame.ftype = str "ping" then
    (sendOut ws1 (Event.sendFrame (str "pong") OutData.pongData), ws1, st)
  else if frame.ftype = str "subscribe" then
    handleSubscribe st ws1 frame
  else if frame.ftype = str "unsubscribe" then
    handleUnsubscribe st ws1 frame
  else if frame.ftype = str "task" then
    handleTask now st ws1 frame
  else if frame.ftype = str "status" then
    handleStatusRequest conns st ws1 frame
  else
    (sendOut ws1 (errorEvent 400 (str "Unknown frame type: " ++ frame.ftype)),
      ws1, st)

/-- Per-connection actions of one sweep of Server.startHeartbeat
(dist/types.d.ts lines 797-819): a stale connection gets a timeout status
frame and a close with code 4000, everyone else gets a liveness ping. -/
def heartbeatConnEvents (now timeout : Nat) (ws : WsConn) : List Event :=
  if timeout < now - ws.lastActivity then
    sendOut ws (Event.sendFrame (str "status") OutData.statusTimeoutData) ++
      [Event.closeConn 4000 (str "Connection timeout")]
  else
    if ws.readyOpen then [Event.pingSent] else []

/-- One timer tick of the heartbeat over the whole connection map. -/
def startHeartbeatTick (now timeout : Nat) (conns : List (Str × WsConn)) :
    List (Str × List Event) :=
  conns.map fun p => (p.1, heartbeatConnEvents now timeout p.2)

/-- Per-connection actions of Server.stop (dist/types.d.ts lines 394-411):
an error frame and a close, both with 1001 Server shutting down. -/
def stopEvents (conns : List (Str × WsConn)) : List (Str × List Event) :=
  conns.map fun p =>
    (p.1, sendOut p.2 (errorEvent 1001 (str "Server shutting down")) ++
      [Event.closeConn 1001 (str "Server shutting down")])

end DistServer

namespace TunnelManager

/-- The three supported tunnel providers (src/unnamed/part_000). -/
inductive Provider where
  | frp
  | tailscale
  | tunnelto
deriving Repr, DecidableEq

/-- Provider credentials, flattened over the three providers. -/
structure TunnelCreds where
  serverAddr : Option Str
  serverPort : Option Nat
  authToken : Option Str
  apiKey : Option Str
deriving Repr, DecidableEq

/-- The per-tunnel configuration record buildConfig produces; publicUrl is
attached later when the tunnel is spawned. -/
structure TunnelConfig where
  provider : Provider
  enabled : Bool
  localPort : Nat
  creds : TunnelCreds
  publicUrl : Option Str
deriving Repr, DecidableEq

/-- An entry of the activeTunnels map; the child process handle itself is
not modelled, its observable behaviour lives in the spawn environment. -/
structure TunnelProc where
  id : Str
  provider : Provider
  config : TunnelConfig
  startedAt : Nat
deriving Repr, DecidableEq

/-- The TunnelManager state: the activeTunnels map. -/
structure TMState where
  activeTunnels : List (Provider × TunnelProc)
deriving Repr, DecidableEq

/-- The status shape getStatus reports. -/
structure TunnelStatus where
  provider : Provider
  running : Bool
  publicUrl : Option Str
  localPort : Nat
  startedAt : Option Nat
deriving Repr, DecidableEq

/-- Embeds TunnelManager.getStatus (part_000 lines 93-109). -/
def getStatus (p : Provider) (st : TMState) : TunnelStatus :=
  match mlookup st.activeTunnels p with
  | none => ⟨p, false, none, 0, none⟩
  | some t => ⟨p, true, t.config.publicUrl, t.config.localPort,
      some t.startedAt⟩

/-- Configuration of the manager (config.yaml surface used by
buildConfig). -/
structure FrpSettings where
  enabled : Bool
  serverAddr : Option Str
  serverPort : Option Nat
  authToken : Option Str
deriving Repr, DecidableEq

structure TailscaleSettings where
  enabled : Bool
  dnsName : Str
  servePath : Str
deriving Repr, DecidableEq

structure TunneltoSettings where
  enabled : Bool
  apiKey : Option Str
deriving Repr, DecidableEq

structure ManagerConfig where
  defaultProvider : Provider
  frp : FrpSettings
  tailscale : TailscaleSettings
  tunnelto : TunneltoSettings
deriving Repr, DecidableEq

/-- Embeds TunnelManager.buildConfig (part_000 lines 128-157) for the base
configurations; the customConfig overlay is not exercised by any claim. -/
def buildConfig (cfg : ManagerConfig) : Provider → TunnelConfig
  | Provider.frp =>
    ⟨Provider.frp, cfg.frp.enabled, 3000,
      ⟨cfg.frp.serverAddr, cfg.frp.serverPort, cfg.frp.authToken, none⟩, none⟩
  | Provider.tailscale =>
    ⟨Provider.tailscale, cfg.tailscale.enabled, 3000,
      ⟨none, none, none, none⟩, none⟩
  | Provider.tunnelto =>
    ⟨Provider.tunnelto, cfg.tunnelto.enabled, 3000,
      ⟨none, none, none, cfg.tunnelto.apiKey⟩, none⟩

/-- The literal part of the frp success pattern. -/
def frpPattern : Str := str "start proxy success. url = "

/-- Scan for the first position where the literal pattern followed by the
capture head appears; the capture is the maximal run of non-whitespace
characters from the capture head on.  This is the regex
start proxy success\. url = (http[^\s]+) on one output chunk. -/
def scanFor (pat pfx : Str) : Str → Option Str
  | [] => none
  | c :: cs =>
    if List.isPrefixOf (pat ++ pfx) (c :: cs) then
      some (((c :: cs).drop pat.length).takeWhile fun ch => ¬ ch.isWhitespace)
    else scanFor pat pfx cs

/-- The url extracted from one frpc output chunk, if the success line
appears in it. -/
def extractFrpUrl (chunk : Str) : Option Str :=
  scanFor frpPattern (str "http") chunk

/-- The publicUrl after the stdout handler has seen all chunks of the
startup window: every matching chunk overwrites it, so the last match
wins; with no match the initial placeholder survives. -/
def frpFinalUrl (chunks : List Str) (placeholder : Str) : Str :=
  chunks.foldl
    (fun acc chunk =>
      match extractFrpUrl chunk with
      | some u => u
      | none => acc)
    placeholder

/-- The placeholder publicUrl startFrpTunnel installs before any output
has been read. -/
def frpPlaceholder (instanceId : Str) : Str :=
  str "http://" ++ instanceId ++ str ".frp.local"

/-- What the spawned frpc process did during the two-second startup wait:
its shortened uuid instance id, the stdout chunks seen, whether it was
killed or exited, and the clock. -/
structure FrpEnv where
  instanceId : Str
  stdoutChunks : List Str
  exitedDuringWait : Bool
  now : Nat
deriving Repr, DecidableEq

/-- Embeds TunnelManager.startFrpTunnel (part_000 lines 161-214): install
the placeholder url, let the stdout handler overwrite it on each matching
chunk, and after the wait either throw (the close handler has already
dropped the frp entry) or store the tunnel and report it running. -/
def startFrpTunnel (env : FrpEnv) (config : TunnelConfig) (st : TMState) :
    Except Str TunnelStatus × TMState :=
  let url := frpFinalUrl env.stdoutChunks (frpPlaceholder env.instanceId)
  if env.exitedDuringWait then
    (Except.error (str "frpc process failed to start"),
      ⟨mdel st.activeTunnels Provider.frp⟩)
  else
    let tp : TunnelProc := ⟨env.instanceId, Provider.frp,
      { config with publicUrl := some url }, env.now⟩
    (Except.ok ⟨Provider.frp, true, some url, config.localPort, some env.now⟩,
      ⟨mset st.activeTunnels Provider.frp tp⟩)

/-- Behaviour of the tailscale availability check and serve spawn:
checkError holds the failure message when tailscale status exited non-zero
or timed out. -/
structure TailscaleEnv where
  instanceId : Str
  checkError : Option Str
  now : Nat
deriving Repr, DecidableEq

/-- Embeds TunnelManager.startTailscaleTunnel (part_000 lines 240-300):
fail when the availability check fails, otherwise the public url is built
deterministically from the configured DNS name, with no output parsing. -/
def startTailscaleTunnel (env : TailscaleEnv) (dnsName servePath : Str)
    (config : TunnelConfig) (st : TMState) :
    Except Str TunnelStatus × TMState :=
  match env.checkError with
  | some e => (Except.error e, st)
  | none =>
    let url := str "https://" ++ dnsName ++ str ".tailnet.ts.net" ++ servePath
    let tp : TunnelProc := ⟨env.instanceId, Provider.tailscale,
      { config with publicUrl := some url }, env.now⟩
    (Except.ok ⟨Provider.tailscale, true, some url, config.localPort,
        some env.now⟩,
      ⟨mset st.activeTunnels Provider.tailscale tp⟩)

/-- The separator class of the tunnelto url pattern. -/
def isSepColonOrSpace (c : Char) : Bool := c = ':' || c.isWhitespace

/-- The regex url[:\s]+(https:\/\/[^\s]+) with case-insensitive url, on
one output chunk (the https literal is matched as written; no claim
exercises this provider's parsing). -/
def tunneltoScan : Str → Option Str
  | u :: r :: l :: rest =>
    if u.toLower = 'u' ∧ r.toLower = 'r' ∧ l.toLower = 'l' then
      let run := rest.takeWhile isSepColonOrSpace
      let after := rest.drop run.length
      if 1 ≤ run.length ∧ List.isPrefixOf (str "https://") after then
        some (after.takeWhile fun ch => ¬ ch.isWhitespace)
      else tunneltoScan (r :: l :: rest)
    else tunneltoScan (r :: l :: rest)
  | _ => none

/-- What the spawned tunnelto process did during the startup wait. -/
structure TunneltoEnv where
  instanceId : Str
  subdomainId : Str
  stdoutChunks : List Str
  now : Nat
deriving Repr, DecidableEq

/-- Embeds TunnelManager.startTunneltoTunnel (part_000 lines 304-355):
random subdomain url as default, overwritten by any matching output line;
the process is stored and reported running with no exit check. -/
def startTunneltoTunnel (env : TunneltoEnv) (config : TunnelConfig)
    (st : TMState) : Except Str TunnelStatus × TMState :=
  let subUrl := str "https://t2b-" ++ env.subdomainId ++ str ".tunnelto.dev"
  let url := env.stdoutChunks.foldl
    (fun acc chunk =>
      match tunneltoScan chunk with
      | some u => u
      | none => acc)
    subUrl
  let tp : TunnelProc := ⟨env.instanceId, Provider.tunnelto,
    { config with publicUrl := some url }, env.now⟩
  (Except.ok ⟨Provider.tunnelto, true, some url, config.localPort,
      some env.now⟩,
    ⟨mset st.activeTunnels Provider.tunnelto tp⟩)

/-- The spawn environments of all three providers. -/
structure SpawnEnv where
  frp : FrpEnv
  tailscale : TailscaleEnv
  tunnelto : TunneltoEnv
deriving Repr, DecidableEq

/-- Embeds TunnelManager.start (part_000 lines 27-64): when an instance
for the provider is already in activeTunnels, return its current status
and spawn nothing; otherwise build the configuration and spawn through the
provider-specific path.  The third component counts processes spawned. -/
def start (p : Provider) (cfg : ManagerConfig) (env : SpawnEnv)
    (st : TMState) : Except Str TunnelStatus × TMState × Nat :=
  match mlookup st.activeTunnels p with
  | some _ => (Except.ok (getStatus p st), st, 0)
  | none =>
    let config := buildConfig cfg p
    match p with
    | Provider.frp =>
      let r := startFrpTunnel env.frp config st
      (r.1, r.2, 1)
    | Provider.tailscale =>
      let r := startTailscaleTunnel env.tailscale cfg.tailscale.dnsName
        cfg.tailscale.servePath config st
      (r.1, r.2, 2)
    | Provider.tunnelto =>
      let r := startTunneltoTunnel env.tunnelto config st
      (r.1, r.2, 1)

/-- Embeds TunnelManager.stop (part_000 lines 68-82): drop the instance
from the map (a no-op when absent); the termination signal itself is not
modelled. -/
def stop (p : Provider) (st : TMState) : TMState :=
  ⟨mdel st.activeTunnels p⟩

end TunnelManager

section KeyedMapLemmas

variable {K V : Type} [DecidableEq K]

@[simp]
theorem keys_nil : keys ([] : List (K × V)) = [] := rfl

@[simp]
theorem keys_cons (p : K × V) (l : List (K × V)) :
    keys (p :: l) = p.1 :: keys l := rfl

theorem mlookup_mset_self (l : List (K × V)) (k : K) (v : V) :
    mlookup (mset l k v) k = some v := by
  induction l with
  | nil => simp [mset, mlookup]
  | cons p rest ih =>
    obtain ⟨k0, v0⟩ := p
    by_cases h : k0 = k
    · simp [mset, mlookup, h]
    · simp [mset, mlookup, h, ih]

theorem mlookup_mset_ne (l : List (K × V)) (k k2 : K) (v : V) (h : k2 ≠ k) :
    mlookup (mset l k v) k2 = mlookup l k2 := by
  have h2 : ¬ k = k2 := fun he => h he.symm
  induction l with
  | nil => simp [mset, mlookup, h2]
  | cons p rest ih =>
    obtain ⟨k0, v0⟩ := p
    by_cases h0 : k0 = k
    · subst h0
      simp [mset, mlookup, h2]
    · simp [mset, mlookup, h0, ih]

theorem mset_self (l : List (K × V)) (k : K) (v : V)
    (h : mlookup l k = some v) : mset l k v = l := by
  induction l with
  | nil => simp [mlookup] at h
  | cons p rest ih =>
    obtain ⟨k0, v0⟩ := p
    by_cases h0 : k0 = k
    · subst h0
      simp [mlookup] at h
      simp [mset, h]
    · simp [mlookup, h0] at h
      simp [mset, h0, ih h]

theorem mem_keys_of_mlookup {l : List (K × V)} {k : K} {v : V}
    (h : mlookup l k = some v) : k ∈ keys l := by
  induction l with
  | nil => simp [mlookup] at h
  | cons p rest ih =>
    obtain ⟨k0, v0⟩ := p
    by_cases h0 : k0 = k
    · simp [h0]
    · simp [mlookup, h0] at h
      simp [List.mem_cons]
      exact Or.inr (ih h)

theorem mlookup_eq_none_of_not_mem {l : List (K × V)} {k : K}
    (h : k ∉ keys l) : mlookup l k = none := by
  induction l with
  | nil => rfl
  | cons p rest ih =>
    obtain ⟨k0, v0⟩ := p
    have h1 : ¬ k0 = k := by
      intro he
      exact h (by rw [keys_cons, he]; exact List.mem_cons_self k (keys rest))
    have h2 : k ∉ keys rest := by
      intro hm
      exact h (by rw [keys_cons]; exact List.mem_cons_of_mem _ hm)
    simp [mlookup, h1, ih h2]

theorem keys_mset_of_mem {l : List (K × V)} {k : K} (v : V)
    (h : k ∈ keys l) : keys (mset l k v) = keys l := by
  induction l with
  | nil => simp at h
  | cons p rest ih =>
    obtain ⟨k0, v0⟩ := p
    by_cases h0 : k0 = k
    · simp [mset, h0]
    · rw [keys_cons, List.mem_cons] at h
      rcases h with h | h
      · exact absurd h.symm h0
      · simp [mset, h0, ih h]

theorem keys_mset_of_not_mem {l : List (K × V)} {k : K} (v : V)
    (h : k ∉ keys l) : keys (mset l k v) = keys l ++ [k] := by
  induction l with
  | nil => simp [mset]
  | cons p rest ih =>
    obtain ⟨k0, v0⟩ := p
    have h1 : ¬ k0 = k := by
      intro he
      exact h (by rw [keys_cons, he]; exact List.mem_cons_self k (keys rest))
    have h2 : k ∉ keys rest := by
      intro hm
      exact h (by rw [keys_cons]; exact List.mem_cons_of_mem _ hm)
    simp [mset, h1, ih h2]

theorem keys_mset_nodup {l : List (K × V)} {k : K} (v : V)
    (h : (keys l).Nodup) : (keys (mset l k v)).Nodup := by
  by_cases hm : k ∈ keys l
  · rw [keys_mset_of_mem v hm]; exact h
  · rw [keys_mset_of_not_mem v hm]
    refine List.Nodup.append h (List.nodup_singleton k) ?_
    intro a ha hb
    rw [List.mem_singleton] at hb
    exact hm (hb ▸ ha)

theorem mdel_sublist (l : List (K × V)) (k : K) : List.Sublist (mdel l k) l := by
  induction l with
  | nil => simp [mdel]
  | cons p rest ih =>
    obtain ⟨k0, v0⟩ := p
    by_cases h0 : k0 = k
    · simp only [mdel, if_pos h0]
      exact List.sublist_cons_self _ _
    · simp only [mdel, if_neg h0]
      exact List.Sublist.cons₂ _ ih

theorem keys_mdel_sublist (l : List (K × V)) (k : K) :
    List.Sublist (keys (mdel l k)) (keys l) :=
  List.Sublist.map Prod.fst (mdel_sublist l k)

theorem mlookup_mdel_self {l : List (K × V)} {k : K}
    (h : (keys l).Nodup) : mlookup (mdel l k) k = none := by
  induction l with
  | nil => rfl
  | cons p rest ih =>
    obtain ⟨k0, v0⟩ := p
    rw [keys_cons, List.nodup_cons] at h
    by_cases h0 : k0 = k
    · subst h0
      simp only [mdel, if_pos rfl]
      exact mlookup_eq_none_of_not_mem h.1
    · simp [mdel, mlookup, h0, ih h.2]

theorem mlookup_mdel_ne (l : List (K × V)) (k k2 : K) (h : k2 ≠ k) :
    mlookup (mdel l k) k2 = mlookup l k2 := by
  induction l with
  | nil => rfl
  | cons p rest ih =>
    obtain ⟨k0, v0⟩ := p
    by_cases h0 : k0 = k
    · subst h0
      have h2 : ¬ k0 = k2 := fun he => h he.symm
      simp [mdel, mlookup, h2]
    · simp [mdel, mlookup, h0, ih]

theorem keys_append (l1 l2 : List (K × V)) :
    keys (l1 ++ l2) = keys l1 ++ keys l2 := by
  simp [keys]

theorem mlookup_append_right {l1 : List (K × V)} (l2 : List (K × V)) {k : K}
    (h : k ∉ keys l1) : mlookup (l1 ++ l2) k = mlookup l2 k := by
  induction l1 with
  | nil => rfl
  | cons p rest ih =>
    obtain ⟨k0, v0⟩ := p
    have h1 : ¬ k0 = k := by
      intro he
      exact h (by rw [keys_cons, he]; exact List.mem_cons_self k (keys rest))
    have h2 : k ∉ keys rest := by
      intro hm
      exact h (by rw [keys_cons]; exact List.mem_cons_of_mem _ hm)
    simp [mlookup, h1, ih h2]

theorem mlookup_middle_self {pre post : List (K × V)} {k : K} (v : V)
    (h : k ∉ keys pre) : mlookup (pre ++ (k, v) :: post) k = some v := by
  rw [mlookup_append_right _ h]
  simp [mlookup]

theorem mlookup_middle_ne (pre post : List (K × V)) (e : K × V) {k : K}
    (h : k ≠ e.1) : mlookup (pre ++ e :: post) k = mlookup (pre ++ post) k := by
  induction pre with
  | nil =>
    obtain ⟨k0, v0⟩ := e
    have h2 : ¬ k0 = k := fun he => h (by simp [he.symm])
    simp [mlookup, h2]
  | cons p rest ih =>
    obtain ⟨k0, v0⟩ := p
    by_cases h0 : k0 = k
    · simp [mlookup, h0]
    · simp [mlookup, h0, ih]

theorem mlookup_decomp {l : List (K × V)} {k : K} {v : V}
    (h : mlookup l k = some v) :
    ∃ pre post, l = pre ++ (k, v) :: post ∧ k ∉ keys pre := by
  induction l with
  | nil => simp [mlookup] at h
  | cons p rest ih =>
    obtain ⟨k0, v0⟩ := p
    by_cases h0 : k0 = k
    · subst h0
      simp [mlookup] at h
      exact ⟨[], rest, by simp [h], by simp⟩
    · simp [mlookup, h0] at h
      obtain ⟨pre, post, hl, hk⟩ := ih h
      refine ⟨(k0, v0) :: pre, post, by simp [hl], ?_⟩
      rw [keys_cons, List.mem_cons]
      push_neg
      exact ⟨fun he => h0 he.symm, hk⟩

theorem mlookup_of_mem_nodup {l : List (K × V)} (h : (keys l).Nodup)
    {k : K} {v : V} (hm : (k, v) ∈ l) : mlookup l k = some v := by
  induction l with
  | nil => simp at hm
  | cons p rest ih =>
    obtain ⟨k0, v0⟩ := p
    rw [keys_cons, List.nodup_cons] at h
    rcases List.mem_cons.mp hm with he | hm2
    · rw [Prod.mk.injEq] at he
      simp [mlookup, he.1, he.2]
    · have h0 : ¬ k0 = k := by
        intro he
        refine h.1 ?_
        subst he
        exact List.mem_map.mpr ⟨(k0, v), hm2, rfl⟩
      simp [mlookup, h0, ih h.2 hm2]

end KeyedMapLemmas

section JsSetLemmas

variable {A : Type} [DecidableEq A]

theorem mem_sadd_self (s : List A) (x : A) : x ∈ sadd s x := by
  by_cases h : x ∈ s <;> simp [sadd, h]

theorem sadd_of_mem {s : List A} {x : A} (h : x ∈ s) : sadd s x = s := by
  simp [sadd, h]

theorem sadd_nodup {s : List A} {x : A} (h : s.Nodup) : (sadd s x).Nodup := by
  by_cases hm : x ∈ s
  · simpa [sadd, hm] using h
  · rw [sadd, if_neg hm]
    refine List.Nodup.append h (List.nodup_singleton x) ?_
    intro a ha hb
    rw [List.mem_singleton] at hb
    exact hm (hb ▸ ha)

theorem sadd_ne_nil (s : List A) (x : A) : sadd s x ≠ [] := by
  by_cases hm : x ∈ s
  · rw [sadd, if_pos hm]
    rintro rfl
    simp at hm
  · rw [sadd, if_neg hm]
    simp

end JsSetLemmas

theorem splitAux_ne_nil (sep : Char) (s acc : Str) :
    SecureServer.splitAux sep s acc ≠ [] := by
  induction s generalizing acc with
  | nil => simp [SecureServer.splitAux]
  | cons c cs ih =>
    by_cases h : c = sep
    · simp [SecureServer.splitAux, h]
    · simp only [SecureServer.splitAux, if_neg h]
      exact ih _

theorem joinParts_cons (sep : Char) (p : Str) (ps : List Str) (h : ps ≠ []) :
    SecureServer.joinParts sep (p :: ps) =
      p ++ sep :: SecureServer.joinParts sep ps := by
  cases ps with
  | nil => exact absurd rfl h
  | cons q qs => rfl

theorem joinParts_splitAux (sep : Char) (s : Str) :
    ∀ acc : Str,
      SecureServer.joinParts sep (SecureServer.splitAux sep s acc) =
        acc.reverse ++ s := by
  induction s with
  | nil => intro acc; simp [SecureServer.splitAux, SecureServer.joinParts]
  | cons c cs ih =>
    intro acc
    by_cases h : c = sep
    · rw [SecureServer.splitAux, if_pos h,
        joinParts_cons sep _ _ (splitAux_ne_nil sep cs []), ih []]
      simp [h]
    · rw [SecureServer.splitAux, if_neg h, ih (c :: acc)]
      simp

theorem joinParts_splitOnChar (sep : Char) (s : Str) :
    SecureServer.joinParts sep (SecureServer.splitOnChar sep s) = s := by
  simpa using joinParts_splitAux sep s []

/-- C2: the secure API-key validator fails closed.  Whenever it returns a
userId (the non-Invalid outcome) the presented key has exactly the shape
t2b_userId_signature and the presented signature equals the signature
recomputed over that userId with the server-held secret (the first 16 digest
characters); every other input yields none. -/
theorem validateApiKey_fails_closed (sha : Str → Str) (apiKey secret uid : Str)
    (h : SecureServer.validateApiKey sha apiKey secret = some uid) :
    apiKey = str "t2b" ++ '_' :: uid ++ '_' ::
        SecureServer.expectedSig sha uid secret ∧
    (SecureServer.expectedSig sha uid secret).length = 16 ∧ uid ≠ [] := by
  rw [SecureServer.validateApiKey] at h
  by_cases hnil : apiKey = []
  · rw [if_pos hnil] at h; cases h
  rw [if_neg hnil] at h
  have hjoin := joinParts_splitOnChar '_' apiKey
  rcases hp : SecureServer.splitOnChar '_' apiKey with _ | ⟨p0, _ | ⟨p1, _ | ⟨p2, rest⟩⟩⟩
  · rw [hp] at h; cases h
  · rw [hp] at h; cases h
  · rw [hp] at h; cases h
  · cases rest with
    | cons q qs => rw [hp] at h; cases h
    | nil =>
      rw [hp] at h hjoin
      rw [SecureServer.validateParts] at h
      by_cases h0 : p0 ≠ str "t2b"
      · rw [if_pos h0] at h; cases h
      rw [if_neg h0] at h
      push_neg at h0
      by_cases h1 : p1 = []
      · rw [if_pos h1] at h; cases h
      rw [if_neg h1] at h
      by_cases h2 : p2 = []
      · rw [if_pos h2] at h; cases h
      rw [if_neg h2] at h
      by_cases h3 : p2.length ≠ 16
      · rw [if_pos h3] at h; cases h
      rw [if_neg h3] at h
      push_neg at h3
      by_cases h4 : p2.length ≠ (SecureServer.expectedSig sha p1 secret).length
      · rw [if_pos h4] at h; cases h
      rw [if_neg h4] at h
      by_cases h5 : p2 = SecureServer.expectedSig sha p1 secret
      · rw [if_pos h5] at h
        have huid : p1 = uid := by injection h
        subst huid
        refine ⟨?_, ?_, h1⟩
        · rw [← hjoin, h0, h5]
          simp [SecureServer.joinParts]
        · push_neg at h4
          rw [← h4, h3]
      · rw [if_neg h5] at h; cases h

/-- Witness for C2 at a concrete key: the validator accepts
t2b_u1_0123456789abcdef under a digest function returning
0123456789abcdef, and the theorem applies. -/
theorem validateApiKey_fails_closed_witness :
    SecureServer.validateApiKey (fun _ => str "0123456789abcdef")
        (str "t2b_u1_0123456789abcdef") (str "s3cret") = some (str "u1") ∧
    (str "t2b_u1_0123456789abcdef" = str "t2b" ++ '_' :: str "u1" ++ '_' ::
        SecureServer.expectedSig (fun _ => str "0123456789abcdef")
          (str "u1") (str "s3cret") ∧
      (SecureServer.expectedSig (fun _ => str "0123456789abcdef")
          (str "u1") (str "s3cret")).length = 16 ∧ str "u1" ≠ []) :=
  ⟨by decide, validateApiKey_fails_closed _ _ _ _ (by decide)⟩

theorem endSessionAux_skip (c : Str)
    (pre rest : List (Nat × SessionManager.Session))
    (h : ∀ p ∈ pre, c ∉ p.2.connectionIds) :
    SessionManager.endSessionAux c (pre ++ rest) =
      (pre ++ (SessionManager.endSessionAux c rest).1,
        (SessionManager.endSessionAux c rest).2) := by
  induction pre with
  | nil => simp
  | cons p pre ih =>
    obtain ⟨sid, s⟩ := p
    have hc : c ∉ s.connectionIds := h _ (List.mem_cons_self _ _)
    have hrest : ∀ q ∈ pre, c ∉ q.2.connectionIds :=
      fun q hq => h q (List.mem_cons_of_mem _ hq)
    simp [SessionManager.endSessionAux, hc, ih hrest]

theorem endSessionAux_spec (c : Str) (l : List (Nat × SessionManager.Session)) :
    (SessionManager.endSessionAux c l = (l, none) ∧
      ∀ p ∈ l, c ∉ p.2.connectionIds) ∨
    ∃ pre sid s post,
      l = pre ++ (sid, s) :: post ∧
      (∀ p ∈ pre, c ∉ p.2.connectionIds) ∧
      c ∈ s.connectionIds ∧
      ((s.connectionIds.erase c = [] ∧
        SessionManager.endSessionAux c l = (pre ++ post, some s.userId)) ∨
       (s.connectionIds.erase c ≠ [] ∧
        SessionManager.endSessionAux c l =
          (pre ++ (sid, { s with connectionIds := s.connectionIds.erase c })
            :: post, none))) := by
  induction l with
  | nil => left; exact ⟨rfl, by simp⟩
  | cons p rest ih =>
    obtain ⟨sid0, s0⟩ := p
    by_cases hc : c ∈ s0.connectionIds
    · right
      refine ⟨[], sid0, s0, rest, by simp, by simp, hc, ?_⟩
      by_cases he : s0.connectionIds.erase c = []
      · left; exact ⟨he, by simp [SessionManager.endSessionAux, hc, he]⟩
      · right; exact ⟨he, by simp [SessionManager.endSessionAux, hc, he]⟩
    · rcases ih with ⟨heq, hall⟩ | ⟨pre, sid, s, post, hl, hpre, hcs, hres⟩
      · left
        constructor
        · simp [SessionManager.endSessionAux, hc, heq]
        · intro p hp
          rcases List.mem_cons.mp hp with rfl | hp
          · exact hc
          · exact hall p hp
      · right
        refine ⟨(sid0, s0) :: pre, sid, s, post, by simp [hl], ?_, hcs, ?_⟩
        · intro p hp
          rcases List.mem_cons.mp hp with rfl | hp
          · exact hc
          · exact hpre p hp
        · rcases hres with ⟨he, hr⟩ | ⟨he, hr⟩
          · left; exact ⟨he, by simp [SessionManager.endSessionAux, hc, hr]⟩
          · right; exact ⟨he, by simp [SessionManager.endSessionAux, hc, hr]⟩

theorem smInv_createSession {st : SessionManager.SMState} {c u : Str} {t : Nat}
    {s : SessionManager.Session} {st2 : SessionManager.SMState}
    (hinv : SessionManager.SMInv st)
    (h : SessionManager.createSession c u t st = some (s, st2)) :
    SessionManager.SMInv st2 := by
  obtain ⟨hn1, hn2, hbound, hfwd, hbwd⟩ := hinv
  rw [SessionManager.createSession] at h
  cases hu : mlookup st.userSessions u with
  | none =>
    rw [hu] at h
    simp only [Option.some.injEq, Prod.mk.injEq] at h
    obtain ⟨hs, hst⟩ := h
    subst hst
    have hfreshmem : st.nextId ∉ keys st.sessions := by
      intro hm
      exact absurd (hbound _ hm) (lt_irrefl _)
    refine ⟨keys_mset_nodup _ hn1, keys_mset_nodup _ hn2, ?_, ?_, ?_⟩
    · intro sid hm
      rw [keys_mset_of_not_mem _ hfreshmem] at hm
      rcases List.mem_append.mp hm with hm | hm
      · exact Nat.lt_succ_of_lt (hbound _ hm)
      · rw [List.mem_singleton] at hm
        subst hm
        exact Nat.lt_succ_self _
    · intro uid sid hlk
      by_cases huid : uid = u
      · subst huid
        rw [mlookup_mset_self] at hlk
        injection hlk with hlk
        subst hlk
        exact ⟨_, mlookup_mset_self _ _ _, rfl, by simp⟩
      · rw [mlookup_mset_ne _ _ _ _ huid] at hlk
        obtain ⟨s0, hs0, hsu, hsc⟩ := hfwd _ _ hlk
        have hne : sid ≠ st.nextId := by
          intro he
          subst he
          exact hfreshmem (mem_keys_of_mlookup hs0)
        exact ⟨s0, by rw [mlookup_mset_ne _ _ _ _ hne]; exact hs0, hsu, hsc⟩
    · intro sid s0 hs0
      by_cases hne : sid = st.nextId
      · subst hne
        rw [mlookup_mset_self] at hs0
        injection hs0 with hs0
        subst hs0
        exact mlookup_mset_self _ _ _
      · rw [mlookup_mset_ne _ _ _ _ hne] at hs0
        have hb := hbwd _ _ hs0
        have hsune : s0.userId ≠ u := by
          intro he
          rw [he, hu] at hb
          cases hb
        rw [mlookup_mset_ne _ _ _ _ hsune]
        exact hb
  | some sid0 =>
    simp only [hu] at h
    cases hs0 : mlookup st.sessions sid0 with
    | none => simp [hs0] at h
    | some existing =>
      simp only [hs0, Option.some.injEq, Prod.mk.injEq] at h
      obtain ⟨hupd, hst⟩ := h
      subst hst
      have hmem : sid0 ∈ keys st.sessions := mem_keys_of_mlookup hs0
      refine ⟨keys_mset_nodup _ hn1, hn2, ?_, ?_, ?_⟩
      · intro sid hm
        rw [keys_mset_of_mem _ hmem] at hm
        exact hbound _ hm
      · intro uid sid hlk
        by_cases hsid : sid = sid0
        · subst hsid
          obtain ⟨s1, hs1, h1u, h1c⟩ := hfwd _ _ hlk
          rw [hs0] at hs1
          injection hs1 with hs1
          subst hs1
          refine ⟨_, mlookup_mset_self _ _ _, h1u, sadd_ne_nil _ _⟩
        · rw [mlookup_mset_ne _ _ _ _ hsid]
          exact hfwd _ _ hlk
      · intro sid s2 hs2
        by_cases hsid : sid = sid0
        · subst hsid
          rw [mlookup_mset_self] at hs2
          injection hs2 with hs2
          subst hs2
          exact hbwd _ existing hs0
        · rw [mlookup_mset_ne _ _ _ _ hsid] at hs2
          exact hbwd _ _ hs2

theorem smInv_endSession {st : SessionManager.SMState} (c : Str)
    (hinv : SessionManager.SMInv st) :
    SessionManager.SMInv (SessionManager.endSession c st) := by
  obtain ⟨hn1, hn2, hbound, hfwd, hbwd⟩ := hinv
  rcases endSessionAux_spec c st.sessions with ⟨heq, _⟩ |
      ⟨pre, sid, s, post, hl, hpre, hcs, hres⟩
  · simp only [SessionManager.endSession, heq]
    exact ⟨hn1, hn2, hbound, hfwd, hbwd⟩
  · have hkeys : keys st.sessions = keys pre ++ sid :: keys post := by
      simp [hl, keys_append, keys]
    have hd := List.nodup_append.mp (hkeys ▸ hn1)
    have hsidpost : sid ∉ keys post := (List.nodup_cons.mp hd.2.1).1
    have hsidpre : sid ∉ keys pre :=
      fun hm => hd.2.2 hm (List.mem_cons_self _ _)
    have hlooks : mlookup st.sessions sid = some s := by
      rw [hl]
      exact mlookup_middle_self _ hsidpre
    have hnotmem : sid ∉ keys (pre ++ post) := by
      rw [keys_append, List.mem_append]
      push_neg
      exact ⟨hsidpre, hsidpost⟩
    rcases hres with ⟨he, hr⟩ | ⟨he, hr⟩
    · -- the session became empty and was removed; its index entry is deleted
      simp only [SessionManager.endSession, hr]
      have hnodup2 : (keys (pre ++ post)).Nodup := by
        rw [keys_append]
        refine List.Nodup.sublist ?_ (hkeys ▸ hn1)
        exact List.Sublist.append_left
          (List.sublist_cons_self sid (keys post)) (keys pre)
      refine ⟨hnodup2, ?_, ?_, ?_, ?_⟩
      · exact List.Nodup.sublist (keys_mdel_sublist _ _) hn2
      · intro sid2 hm
        refine hbound _ ?_
        rw [hkeys]
        rw [keys_append, List.mem_append] at hm
        rcases hm with hm | hm
        · exact List.mem_append_left _ hm
        · exact List.mem_append_right _ (List.mem_cons_of_mem _ hm)
      · intro uid sid2 hlk
        have huid : uid ≠ s.userId := by
          intro he2
          rw [he2, mlookup_mdel_self hn2] at hlk
          cases hlk
        rw [mlookup_mdel_ne _ _ _ huid] at hlk
        obtain ⟨s2, hs2, h2u, h2c⟩ := hfwd _ _ hlk
        have hne : sid2 ≠ sid := by
          intro he2
          subst he2
          rw [hlooks] at hs2
          injection hs2 with hs2
          subst hs2
          exact huid h2u.symm
        refine ⟨s2, ?_, h2u, h2c⟩
        rw [hl, mlookup_middle_ne pre post (sid, s) hne] at hs2
        exact hs2
      · intro sid2 s2 hs2
        have hne : sid2 ≠ sid := by
          intro he2
          subst he2
          exact hnotmem (mem_keys_of_mlookup hs2)
        have hs2b : mlookup st.sessions sid2 = some s2 := by
          rw [hl, mlookup_middle_ne pre post (sid, s) hne]
          exact hs2
        have hb := hbwd _ _ hs2b
        have hne2 : s2.userId ≠ s.userId := by
          intro he2
          rw [he2] at hb
          have hb2 := hbwd _ _ hlooks
          rw [hb] at hb2
          injection hb2 with hb2
          exact hne hb2
        rw [mlookup_mdel_ne _ _ _ hne2]
        exact hb
    · -- the session survives with a strictly smaller connection set
      simp only [SessionManager.endSession, hr]
      have hkeys2 : keys (pre ++
          (sid, { s with connectionIds := s.connectionIds.erase c }) :: post) =
          keys st.sessions := by
        rw [keys_append, keys_cons, hkeys]
      refine ⟨by rw [hkeys2]; exact hn1, hn2, ?_, ?_, ?_⟩
      · intro sid2 hm
        rw [hkeys2] at hm
        exact hbound _ hm
      · intro uid sid2 hlk
        obtain ⟨s2, hs2, h2u, h2c⟩ := hfwd _ _ hlk
        by_cases hne : sid2 = sid
        · subst hne
          rw [hlooks] at hs2
          injection hs2 with hs2
          subst hs2
          exact ⟨_, mlookup_middle_self _ hsidpre, h2u, he⟩
        · refine ⟨s2, ?_, h2u, h2c⟩
          rw [mlookup_middle_ne pre post _ hne]
          rw [hl, mlookup_middle_ne pre post (sid, s) hne] at hs2
          exact hs2
      · intro sid2 s2 hs2
        by_cases hne : sid2 = sid
        · subst hne
          rw [mlookup_middle_self _ hsidpre] at hs2
          injection hs2 with hs2
          subst hs2
          exact hbwd _ s hlooks
        · rw [mlookup_middle_ne pre post _ hne] at hs2
          rw [← mlookup_middle_ne pre post (sid, s) hne, ← hl] at hs2
          exact hbwd _ _ hs2

theorem smInv_initial : SessionManager.SMInv SessionManager.initialState := by
  refine ⟨List.nodup_nil, List.nodup_nil, ?_, ?_, ?_⟩
  · intro sid hm
    simp [SessionManager.initialState] at hm
  · intro uid sid h
    simp [SessionManager.initialState, mlookup] at h
  · intro sid s h
    simp [SessionManager.initialState, mlookup] at h

/-- C10: after any sequence of createSession and endSession calls starting
from the empty manager, the sessions map and the userSessions index stay
mutually consistent: every userSessions entry points at a stored session of
the same user with a non-empty connection set, and each user has at most one
session (SMInv). -/
theorem smInv_reachable (ops : List SessionManager.SMOp)
    (st2 : SessionManager.SMState)
    (h : SessionManager.runOps ops SessionManager.initialState = some st2) :
    SessionManager.SMInv st2 := by
  suffices hgen : ∀ (l : List SessionManager.SMOp)
      (st st3 : SessionManager.SMState), SessionManager.SMInv st →
      SessionManager.runOps l st = some st3 → SessionManager.SMInv st3 by
    exact hgen ops _ st2 smInv_initial h
  intro l
  induction l with
  | nil =>
    intro st st3 hinv hrun
    rw [SessionManager.runOps] at hrun
    injection hrun with hrun
    subst hrun
    exact hinv
  | cons op rest ih =>
    intro st st3 hinv hrun
    rw [SessionManager.runOps] at hrun
    cases op with
    | create c u t =>
      simp only [SessionManager.applyOp] at hrun
      cases hc : SessionManager.createSession c u t st with
      | none => rw [hc] at hrun; cases hrun
      | some pr =>
        obtain ⟨s, stmid⟩ := pr
        rw [hc] at hrun
        simp only [Option.map_some', Option.some_bind] at hrun
        exact ih stmid st3 (smInv_createSession hinv hc) hrun
    | endConn c =>
      simp only [SessionManager.applyOp, Option.some_bind] at hrun
      exact ih _ st3 (smInv_endSession c hinv) hrun

/-- Witness for C10 on a concrete call sequence: attach one connection and
then detach it; the invariant holds for the resulting state. -/
theorem smInv_reachable_witness :
    SessionManager.runOps
        [SessionManager.SMOp.create (str "c1") (str "u1") 1,
          SessionManager.SMOp.endConn (str "c1")]
        SessionManager.initialState = some ⟨[], [], [], [], 1⟩ ∧
    SessionManager.SMInv ⟨[], [], [], [], 1⟩ :=
  ⟨by decide,
    smInv_reachable
      [SessionManager.SMOp.create (str "c1") (str "u1") 1,
        SessionManager.SMOp.endConn (str "c1")]
      ⟨[], [], [], [], 1⟩ (by decide)⟩

theorem count_eq_one_of_nodup_mem {A : Type} [BEq A] [LawfulBEq A]
    {l : List A} {x : A} (hn : l.Nodup) (hm : x ∈ l) : l.count x = 1 := by
  induction l with
  | nil => simp at hm
  | cons a rest ih =>
    rw [List.nodup_cons] at hn
    rcases List.mem_cons.mp hm with rfl | hm2
    · have hz : rest.count x = 0 := List.count_eq_zero.mpr hn.1
      rw [List.count_cons_self, hz]
    · have hax : x ≠ a := fun he => hn.1 (he ▸ hm2)
      rw [List.count_cons_of_ne hax]
      exact ih hn.2 hm2

/-- C5: session attach is idempotent per connection.  If attaching
connection C for user U once succeeds and yields the session s1 and state
st1 (and connection sets hold no duplicates), then attaching C for U again
returns exactly the same session and leaves the state untouched, and the
session holds C exactly once. -/
theorem createSession_idempotent {st : SessionManager.SMState} {c u : Str}
    {t : Nat} {s1 : SessionManager.Session} {st1 : SessionManager.SMState}
    (hwf : ∀ sid s, mlookup st.sessions sid = some s → s.connectionIds.Nodup)
    (h : SessionManager.createSession c u t st = some (s1, st1)) :
    SessionManager.createSession c u t st1 = some (s1, st1) ∧
    s1.connectionIds.count c = 1 := by
  rw [SessionManager.createSession] at h
  cases hu : mlookup st.userSessions u with
  | none =>
    simp only [hu, Option.some.injEq, Prod.mk.injEq] at h
    obtain ⟨hs1, hst1⟩ := h
    subst hst1
    subst hs1
    constructor
    · rw [SessionManager.createSession]
      simp only [mlookup_mset_self, sadd_of_mem (List.mem_singleton_self c),
        mset_self _ _ _ (mlookup_mset_self _ _ _)]
    · exact count_eq_one_of_nodup_mem (by simp) (by simp)
  | some sid0 =>
    simp only [hu] at h
    cases hs0 : mlookup st.sessions sid0 with
    | none => simp [hs0] at h
    | some existing =>
      simp only [hs0, Option.some.injEq, Prod.mk.injEq] at h
      obtain ⟨hs1, hst1⟩ := h
      subst hst1
      subst hs1
      constructor
      · rw [SessionManager.createSession]
        simp only [hu, mlookup_mset_self,
          sadd_of_mem (mem_sadd_self existing.connectionIds c),
          mset_self _ _ _ (mlookup_mset_self _ _ _)]
      · exact count_eq_one_of_nodup_mem
          (sadd_nodup (hwf _ _ hs0)) (mem_sadd_self _ _)

/-- Witness for C5: attach connection c1 for user u1 to the fresh manager;
re-attaching returns the same session and state, with c1 held once. -/
theorem createSession_idempotent_witness :
    SessionManager.createSession (str "c1") (str "u1") 5
        SessionManager.initialState =
      some (⟨0, str "u1", [str "c1"], 5, 5⟩,
        ⟨[(0, ⟨0, str "u1", [str "c1"], 5, 5⟩)], [(str "u1", 0)], [], [], 1⟩) ∧
    (SessionManager.createSession (str "c1") (str "u1") 5
        ⟨[(0, ⟨0, str "u1", [str "c1"], 5, 5⟩)], [(str "u1", 0)], [], [], 1⟩ =
      some (⟨0, str "u1", [str "c1"], 5, 5⟩,
        ⟨[(0, ⟨0, str "u1", [str "c1"], 5, 5⟩)], [(str "u1", 0)], [], [], 1⟩) ∧
      List.count (str "c1")
        (SessionManager.Session.connectionIds ⟨0, str "u1", [str "c1"], 5, 5⟩)
        = 1) :=
  ⟨by decide,
    @createSession_idempotent
      SessionManager.initialState (str "c1") (str "u1") 5
      ⟨0, str "u1", [str "c1"], 5, 5⟩
      ⟨[(0, ⟨0, str "u1", [str "c1"], 5, 5⟩)], [(str "u1", 0)], [], [], 1⟩
      (by
        intro sid s h
        simp [SessionManager.initialState, mlookup] at h)
      (by decide)⟩

/-- C6: detaching the only connection of a session removes the session
entirely, and the user lookup comes back empty; detaching one of several
connections keeps the session, minus that connection.  The hypotheses say
the keys of both maps are unique and no other session holds the
connection. -/
theorem endSession_last_connection {st : SessionManager.SMState} {sid : Nat}
    {s : SessionManager.Session} {c : Str}
    (hn1 : (keys st.sessions).Nodup) (hn2 : (keys st.userSessions).Nodup)
    (hs : mlookup st.sessions sid = some s)
    (huniq : ∀ sid2 s2, mlookup st.sessions sid2 = some s2 →
      c ∈ s2.connectionIds → sid2 = sid) :
    (s.connectionIds = [c] →
      mlookup (SessionManager.endSession c st).sessions sid = none ∧
      SessionManager.getSessionByUser s.userId
        (SessionManager.endSession c st) = none) ∧
    (∀ d, c ∈ s.connectionIds → d ∈ s.connectionIds → d ≠ c →
      ∃ s2, mlookup (SessionManager.endSession c st).sessions sid = some s2 ∧
        s2.connectionIds = s.connectionIds.erase c) := by
  obtain ⟨pre, post, hl, hpre⟩ := mlookup_decomp hs
  have hkeys : keys st.sessions = keys pre ++ sid :: keys post := by
    simp [hl, keys_append, keys]
  have hd := List.nodup_append.mp (hkeys ▸ hn1)
  have hsidpost : sid ∉ keys post := (List.nodup_cons.mp hd.2.1).1
  have hprec : ∀ p ∈ pre, c ∉ p.2.connectionIds := by
    intro p hp hcp
    have hm : (p.1, p.2) ∈ st.sessions := by
      rw [hl]
      exact List.mem_append_left _ (by simpa using hp)
    have hpsid := huniq p.1 p.2 (mlookup_of_mem_nodup hn1 hm) hcp
    apply hpre
    rw [← hpsid]
    exact List.mem_map.mpr ⟨p, hp, rfl⟩
  have hskip := endSessionAux_skip c pre ((sid, s) :: post) hprec
  constructor
  · intro h1
    have haux : SessionManager.endSessionAux c ((sid, s) :: post) =
        (post, some s.userId) := by
      simp [SessionManager.endSessionAux, h1]
    have htotal : SessionManager.endSessionAux c st.sessions =
        (pre ++ post, some s.userId) := by
      rw [hl, hskip, haux]
    constructor
    · simp only [SessionManager.endSession, htotal]
      apply mlookup_eq_none_of_not_mem
      rw [keys_append, List.mem_append]
      push_neg
      exact ⟨hpre, hsidpost⟩
    · simp only [SessionManager.endSession, SessionManager.getSessionByUser,
        htotal]
      rw [mlookup_mdel_self hn2]
  · intro d hcmem hdmem hdne
    have herase : s.connectionIds.erase c ≠ [] := by
      intro hemp
      have hdmem2 : d ∈ s.connectionIds.erase c :=
        (List.mem_erase_of_ne hdne).mpr hdmem
      rw [hemp] at hdmem2
      simp at hdmem2
    have haux : SessionManager.endSessionAux c ((sid, s) :: post) =
        ((sid, { s with connectionIds := s.connectionIds.erase c }) :: post,
          none) := by
      simp [SessionManager.endSessionAux, hcmem, herase]
    have htotal : SessionManager.endSessionAux c st.sessions =
        (pre ++ (sid, { s with connectionIds := s.connectionIds.erase c })
          :: post, none) := by
      rw [hl, hskip, haux]
    refine ⟨{ s with connectionIds := s.connectionIds.erase c }, ?_, rfl⟩
    simp only [SessionManager.endSession, htotal]
    exact mlookup_middle_self _ hpre

/-- Witness for C6 on a concrete manager holding two sessions: detaching
the single connection c1 of user u1 removes that session and empties the
user lookup, while session 1 of user u2 with two connections survives a
detach of c2 minus that connection. -/
theorem endSession_last_connection_witness :
    (mlookup
        (SessionManager.SMState.sessions
          ⟨[(0, ⟨0, str "u1", [str "c1"], 0, 0⟩)], [(str "u1", 0)], [], [], 1⟩)
        0 = some ⟨0, str "u1", [str "c1"], 0, 0⟩) ∧
    ((SessionManager.Session.connectionIds ⟨0, str "u1", [str "c1"], 0, 0⟩
        = [str "c1"]) →
      mlookup (SessionManager.endSession (str "c1")
        ⟨[(0, ⟨0, str "u1", [str "c1"], 0, 0⟩)], [(str "u1", 0)], [], [],
          1⟩).sessions 0 = none ∧
      SessionManager.getSessionByUser (str "u1")
        (SessionManager.endSession (str "c1")
          ⟨[(0, ⟨0, str "u1", [str "c1"], 0, 0⟩)], [(str "u1", 0)], [], [],
            1⟩) = none) := by
  have h := @endSession_last_connection
    ⟨[(0, ⟨0, str "u1", [str "c1"], 0, 0⟩)], [(str "u1", 0)], [], [], 1⟩
    0 ⟨0, str "u1", [str "c1"], 0, 0⟩ (str "c1")
    (by decide) (by decide) (by decide)
    (by
      intro sid2 s2 hlk hc
      by_cases h0 : (0 : Nat) = sid2
      · exact h0.symm
      · simp [mlookup, h0] at hlk)
  exact ⟨by decide, h.1⟩

theorem mlookup_map_val {K V W : Type} [DecidableEq K] (f : V → W)
    (l : List (K × V)) (k : K) :
    mlookup (l.map fun p => (p.1, f p.2)) k = (mlookup l k).map f := by
  induction l with
  | nil => rfl
  | cons p rest ih =>
    obtain ⟨k0, v0⟩ := p
    by_cases h : k0 = k
    · simp [mlookup, h]
    · simp [mlookup, h, ih]

/-- C7: tunnel start is idempotent while a tunnel is active.  When an
instance for the provider is already in the activeTunnels map, start
returns that instance's current status (a running one), spawns no process,
and leaves the map unchanged. -/
theorem start_idempotent_while_active
    (p : TunnelManager.Provider) (cfg : TunnelManager.ManagerConfig)
    (env : TunnelManager.SpawnEnv) (st : TunnelManager.TMState)
    (t : TunnelManager.TunnelProc)
    (h : mlookup st.activeTunnels p = some t) :
    TunnelManager.start p cfg env st =
      (Except.ok (TunnelManager.getStatus p st), st, 0) ∧
    (TunnelManager.getStatus p st).running = true := by
  constructor
  · simp only [TunnelManager.start, h]
  · simp only [TunnelManager.getStatus, h]

/-- Witness for C7: with an frp instance already active, start returns its
status, spawns nothing, and keeps the map. -/
theorem start_idempotent_while_active_witness :
    mlookup (TunnelManager.TMState.activeTunnels
        ⟨[(TunnelManager.Provider.frp,
          ⟨str "i1", TunnelManager.Provider.frp,
            ⟨TunnelManager.Provider.frp, true, 3000,
              ⟨none, none, none, none⟩, some (str "http://pub")⟩, 3⟩)]⟩)
      TunnelManager.Provider.frp =
      some ⟨str "i1", TunnelManager.Provider.frp,
        ⟨TunnelManager.Provider.frp, true, 3000,
          ⟨none, none, none, none⟩, some (str "http://pub")⟩, 3⟩ ∧
    (TunnelManager.start TunnelManager.Provider.frp
        ⟨TunnelManager.Provider.frp, ⟨true, none, none, none⟩,
          ⟨true, str "d", str "/"⟩, ⟨true, none⟩⟩
        ⟨⟨str "a", [], false, 0⟩, ⟨str "b", none, 0⟩,
          ⟨str "c", str "s", [], 0⟩⟩
        ⟨[(TunnelManager.Provider.frp,
          ⟨str "i1", TunnelManager.Provider.frp,
            ⟨TunnelManager.Provider.frp, true, 3000,
              ⟨none, none, none, none⟩, some (str "http://pub")⟩, 3⟩)]⟩ =
        (Except.ok (TunnelManager.getStatus TunnelManager.Provider.frp
          ⟨[(TunnelManager.Provider.frp,
            ⟨str "i1", TunnelManager.Provider.frp,
              ⟨TunnelManager.Provider.frp, true, 3000,
                ⟨none, none, none, none⟩, some (str "http://pub")⟩, 3⟩)]⟩),
          ⟨[(TunnelManager.Provider.frp,
            ⟨str "i1", TunnelManager.Provider.frp,
              ⟨TunnelManager.Provider.frp, true, 3000,
                ⟨none, none, none, none⟩, some (str "http://pub")⟩, 3⟩)]⟩, 0) ∧
      (TunnelManager.getStatus TunnelManager.Provider.frp
        ⟨[(TunnelManager.Provider.frp,
          ⟨str "i1", TunnelManager.Provider.frp,
            ⟨TunnelManager.Provider.frp, true, 3000,
              ⟨none, none, none, none⟩, some (str "http://pub")⟩, 3⟩)]⟩).running
        = true) :=
  ⟨by decide,
    start_idempotent_while_active TunnelManager.Provider.frp
      ⟨TunnelManager.Provider.frp, ⟨true, none, none, none⟩,
        ⟨true, str "d", str "/"⟩, ⟨true, none⟩⟩
      ⟨⟨str "a", [], false, 0⟩, ⟨str "b", none, 0⟩,
        ⟨str "c", str "s", [], 0⟩⟩
      ⟨[(TunnelManager.Provider.frp,
        ⟨str "i1", TunnelManager.Provider.frp,
          ⟨TunnelManager.Provider.frp, true, 3000,
            ⟨none, none, none, none⟩, some (str "http://pub")⟩, 3⟩)]⟩
      ⟨str "i1", TunnelManager.Provider.frp,
        ⟨TunnelManager.Provider.frp, true, 3000,
          ⟨none, none, none, none⟩, some (str "http://pub")⟩, 3⟩
      (by decide)⟩

theorem frpFinalUrl_no_match : ∀ (chunks : List Str) (ph : Str),
    (∀ chunk ∈ chunks, TunnelManager.extractFrpUrl chunk = none) →
    TunnelManager.frpFinalUrl chunks ph = ph := by
  intro chunks
  induction chunks with
  | nil => intro ph _; rfl
  | cons c cs ih =>
    intro ph h
    have hc := h c (List.mem_cons_self _ _)
    have hcs := fun x hx => h x (List.mem_cons_of_mem _ hx)
    simp only [TunnelManager.frpFinalUrl, List.foldl_cons, hc]
    exact ih ph hcs

/-- C9 (counterexample): with no success line in the output and the
process alive after the wait, startFrpTunnel still returns a running
status carrying the placeholder publicUrl http://abc.frp.local — a
reported url no matching output line ever produced. -/
theorem frp_reports_url_without_success_line :
    (TunnelManager.startFrpTunnel ⟨str "abc", [str "frpc starting"], false, 5⟩
        ⟨TunnelManager.Provider.frp, true, 3000, ⟨none, none, none, none⟩,
          none⟩ ⟨[]⟩).1 =
      Except.ok ⟨TunnelManager.Provider.frp, true,
        some (str "http://abc.frp.local"), 3000, some 5⟩ ∧
    TunnelManager.extractFrpUrl (str "frpc starting") = none := by decide

/-- C9 (amended): the frp tunnel's publicUrl starts as the placeholder
http://instanceId.frp.local and is overwritten by the url of each output
line matching start proxy success. url = …, so the reported url is the
extracted one when a line matched and the placeholder otherwise; and if
the process exits before the startup wait completes, start throws frpc
process failed to start instead of returning a running status. -/
theorem frp_start_url_discipline (env : TunnelManager.FrpEnv)
    (config : TunnelManager.TunnelConfig) (st : TunnelManager.TMState) :
    (env.exitedDuringWait = true →
      (TunnelManager.startFrpTunnel env config st).1 =
        Except.error (str "frpc process failed to start")) ∧
    (env.exitedDuringWait = false →
      (TunnelManager.startFrpTunnel env config st).1 =
        Except.ok ⟨TunnelManager.Provider.frp, true,
          some (TunnelManager.frpFinalUrl env.stdoutChunks
            (TunnelManager.frpPlaceholder env.instanceId)),
          config.localPort, some env.now⟩) ∧
    (∀ chunks placeholder,
      (∀ chunk ∈ chunks, TunnelManager.extractFrpUrl chunk = none) →
      TunnelManager.frpFinalUrl chunks placeholder = placeholder) ∧
    (∀ chunks placeholder u chunk,
      TunnelManager.extractFrpUrl chunk = some u →
      TunnelManager.frpFinalUrl (chunks ++ [chunk]) placeholder = u) := by
  refine ⟨?_, ?_, frpFinalUrl_no_match, ?_⟩
  · intro h
    simp [TunnelManager.startFrpTunnel, h]
  · intro h
    simp [TunnelManager.startFrpTunnel, h]
  · intro chunks ph u chunk hm
    simp only [TunnelManager.frpFinalUrl, List.foldl_append,
      List.foldl_cons, List.foldl_nil, hm]

/-- Witness for C9 (amended) on a live process whose output carries a
success line: the reported url is the one extracted from that line. -/
theorem frp_start_url_discipline_witness :
    ((⟨str "abc", [str "x", str "start proxy success. url = http://h:9 ok"],
        false, 5⟩ : TunnelManager.FrpEnv).exitedDuringWait = false) ∧
    ((TunnelManager.startFrpTunnel
        ⟨str "abc", [str "x", str "start proxy success. url = http://h:9 ok"],
          false, 5⟩
        ⟨TunnelManager.Provider.frp, true, 3000, ⟨none, none, none, none⟩,
          none⟩ ⟨[]⟩).1 =
      Except.ok ⟨TunnelManager.Provider.frp, true,
        some (TunnelManager.frpFinalUrl
          [str "x", str "start proxy success. url = http://h:9 ok"]
          (TunnelManager.frpPlaceholder (str "abc"))),
        3000, some 5⟩) :=
  ⟨rfl,
    (frp_start_url_discipline
      ⟨str "abc", [str "x", str "start proxy success. url = http://h:9 ok"],
        false, 5⟩
      ⟨TunnelManager.Provider.frp, true, 3000, ⟨none, none, none, none⟩,
        none⟩ ⟨[]⟩).2.1 rfl⟩

/-- C8: a connection idle past the configured timeout is closed by the
heartbeat sweep with code 4000 Connection timeout; the heartbeat never
closes anything with another code, while server shutdown closes every
connection with 1001 Server shutting down; the two codes differ. -/
theorem idle_timeout_close_code
    (now timeout : Nat) (conns : List (Str × WsConn)) (cid : Str)
    (ws : WsConn)
    (hlk : mlookup conns cid = some ws)
    (hidle : timeout < now - ws.lastActivity) :
    mlookup (DistServer.startHeartbeatTick now timeout conns) cid =
      some (sendOut ws (Event.sendFrame (str "status")
          OutData.statusTimeoutData) ++
        [Event.closeConn 4000 (str "Connection timeout")]) ∧
    (∀ cid2 evs, mlookup (DistServer.startHeartbeatTick now timeout conns)
        cid2 = some evs →
      ∀ code reason, Event.closeConn code reason ∈ evs →
        code = 4000 ∧ reason = str "Connection timeout") ∧
    mlookup (DistServer.stopEvents conns) cid =
      some (sendOut ws (errorEvent 1001 (str "Server shutting down")) ++
        [Event.closeConn 1001 (str "Server shutting down")]) ∧
    (4000 : Nat) ≠ 1001 := by
  refine ⟨?_, ?_, ?_, by decide⟩
  · rw [DistServer.startHeartbeatTick, mlookup_map_val, hlk]
    simp only [Option.map_some']
    rw [DistServer.heartbeatConnEvents, if_pos hidle]
  · intro cid2 evs h code reason hmem
    rw [DistServer.startHeartbeatTick, mlookup_map_val] at h
    cases hlk2 : mlookup conns cid2 with
    | none => rw [hlk2] at h; cases h
    | some ws2 =>
      rw [hlk2] at h
      injection h with h
      subst h
      rw [DistServer.heartbeatConnEvents] at hmem
      by_cases hc : timeout < now - ws2.lastActivity
      · rw [if_pos hc] at hmem
        rcases List.mem_append.mp hmem with hm | hm
        · rw [sendOut] at hm
          by_cases ho : ws2.readyOpen = true
          · rw [if_pos ho] at hm
            rw [List.mem_singleton] at hm
            cases hm
          · rw [if_neg ho] at hm
            cases hm
        · rw [List.mem_singleton] at hm
          injection hm with h1 h2
          exact ⟨h1, h2⟩
      · rw [if_neg hc] at hmem
        by_cases ho : ws2.readyOpen = true
        · rw [if_pos ho, List.mem_singleton] at hmem
          cases hmem
        · rw [if_neg ho] at hmem
          cases hmem
  · rw [DistServer.stopEvents,
      mlookup_map_val
        (fun v => sendOut v (errorEvent 1001 (str "Server shutting down")) ++
          [Event.closeConn 1001 (str "Server shutting down")]) conns cid,
      hlk]
    rfl

/-- Witness for C8 on a connection idle for 100 time units against a
50-unit timeout. -/
theorem idle_timeout_close_code_witness :
    mlookup [((str "c1"), (⟨str "c1", some (str "u1"), [], 0, true⟩ : WsConn))]
        (str "c1") = some ⟨str "c1", some (str "u1"), [], 0, true⟩ ∧
    (50 : Nat) < 100 - 0 ∧
    (mlookup (DistServer.startHeartbeatTick 100 50
        [((str "c1"), ⟨str "c1", some (str "u1"), [], 0, true⟩)]) (str "c1") =
      some (sendOut ⟨str "c1", some (str "u1"), [], 0, true⟩
          (Event.sendFrame (str "status") OutData.statusTimeoutData) ++
        [Event.closeConn 4000 (str "Connection timeout")])) :=
  ⟨by decide, by decide,
    (idle_timeout_close_code 100 50
      [((str "c1"), ⟨str "c1", some (str "u1"), [], 0, true⟩)] (str "c1")
      ⟨str "c1", some (str "u1"), [], 0, true⟩ (by decide) (by decide)).1⟩

/-- C1 (code-bug evidence): in the dist draft, an authenticated task frame
from user u2 referencing bot b1 owned by u1 is processed without any
ownership check: the reply is task_status pending, the task is created and
stored under u2 against u1's bot, and no refusal frame is emitted. -/
theorem task_frame_bypasses_ownership :
    DistServer.handleMessage ⟨fun _ => [], fun _ => none⟩ 10 [] 7
        ⟨[(str "b1",
            ⟨str "b1", str "u1", str "Clawra", str "openclaw", str "online"⟩)],
          [(str "u1", [str "b1"])], SessionManager.initialState, []⟩
        ⟨str "c2", some (str "u2"), [], 0, true⟩
        ⟨str "task",
          { FrameData.empty with
              botId := some (str "b1"), title := some (str "T"),
              description := some (str "D"),
              priority := some (str "high") }⟩ =
      ([Event.sendFrame (str "task_status")
          (OutData.taskStatusData 0 (str "pending"))],
        ⟨str "c2", some (str "u2"), [], 7, true⟩,
        ⟨[(str "b1",
            ⟨str "b1", str "u1", str "Clawra", str "openclaw", str "online"⟩)],
          [(str "u1", [str "b1"])],
          ⟨[], [],
            [(0, ⟨0, str "u2", some (str "b1"), some (str "T"),
              some (str "D"), some (str "high"), str "pending", 7, none⟩)],
            [(str "u2", [0])], 1⟩, []⟩) ∧
    (∀ e ∈ [Event.sendFrame (str "task_status")
        (OutData.taskStatusData 0 (str "pending"))],
      isErrorEvent e = false) := by decide

/-- C3 (counterexample): an unauthenticated ping is answered with a pong,
not with an authentication error, refuting that every non-auth frame on an
unauthenticated connection yields an auth error. -/
theorem unauthenticated_ping_gets_pong :
    DistServer.handleMessage ⟨fun _ => [], fun _ => none⟩ 10 [] 7
        ⟨[], [], SessionManager.initialState, []⟩
        ⟨str "c9", none, [], 0, true⟩
        ⟨str "ping", FrameData.empty⟩ =
      ([Event.sendFrame (str "pong") OutData.pongData],
        ⟨str "c9", none, [], 7, true⟩,
        ⟨[], [], SessionManager.initialState, []⟩) ∧
    (∀ e ∈ [Event.sendFrame (str "pong") OutData.pongData],
      isErrorEvent e = false) := by decide

/-- C3 (amended): while unauthenticated, frames of type message, subscribe
and task are answered with error 401 Not authenticated; the operation is
not executed, the socket is not closed, and the only state change is the
refreshed per-connection activity clock.  (Frames of type ping,
unsubscribe and status are served without authentication; see the
counterexample.) -/
theorem unauthenticated_core_frames_rejected
    (env : DistServer.AuthEnv) (maxPerUser : Nat)
    (conns : List (Str × WsConn)) (now : Nat) (st : DistServer.SrvState)
    (ws : WsConn) (frame : Frame)
    (hauth : ws.userId = none)
    (hty : frame.ftype = str "message" ∨ frame.ftype = str "subscribe" ∨
      frame.ftype = str "task") :
    DistServer.handleMessage env maxPerUser conns now st ws frame =
      (sendOut { ws with lastActivity := now }
          (errorEvent 401 (str "Not authenticated")),
        { ws with lastActivity := now }, st) := by
  rcases hty with h | h | h
  · simp only [DistServer.handleMessage]
    rw [h, if_neg (by decide), if_pos rfl]
    simp only [DistServer.handleMessageFrame, hauth]
  · simp only [DistServer.handleMessage]
    rw [h, if_neg (by decide), if_neg (by decide), if_neg (by decide),
      if_pos rfl]
    simp only [DistServer.handleSubscribe, hauth]
  · simp only [DistServer.handleMessage]
    rw [h, if_neg (by decide), if_neg (by decide), if_neg (by decide),
      if_neg (by decide), if_neg (by decide), if_pos rfl]
    simp only [DistServer.handleTask, hauth]

/-- Witness for C3 (amended): a concrete unauthenticated message frame is
refused with 401. -/
theorem unauthenticated_core_frames_rejected_witness :
    ((⟨str "c9", none, [], 0, true⟩ : WsConn).userId = none) ∧
    ((⟨str "message", FrameData.empty⟩ : Frame).ftype = str "message" ∨
      (⟨str "message", FrameData.empty⟩ : Frame).ftype = str "subscribe" ∨
      (⟨str "message", FrameData.empty⟩ : Frame).ftype = str "task") ∧
    (DistServer.handleMessage ⟨fun _ => [], fun _ => none⟩ 10 [] 7
        ⟨[], [], SessionManager.initialState, []⟩
        ⟨str "c9", none, [], 0, true⟩
        ⟨str "message", FrameData.empty⟩ =
      (sendOut { (⟨str "c9", none, [], 0, true⟩ : WsConn) with
          lastActivity := 7 }
          (errorEvent 401 (str "Not authenticated")),
        { (⟨str "c9", none, [], 0, true⟩ : WsConn) with lastActivity := 7 },
        ⟨[], [], SessionManager.initialState, []⟩)) :=
  ⟨rfl, Or.inl rfl,
    unauthenticated_core_frames_rejected ⟨fun _ => [], fun _ => none⟩ 10 [] 7
      ⟨[], [], SessionManager.initialState, []⟩
      ⟨str "c9", none, [], 0, true⟩ ⟨str "message", FrameData.empty⟩
      rfl (Or.inl rfl)⟩

theorem getUserData_bots (uid : Str) (st : SecureServer.SecState) :
    (SecureServer.getUserData uid st).2.bots = st.bots := by
  cases h : mlookup st.userData uid with
  | none => simp [SecureServer.getUserData, h]
  | some d => simp [SecureServer.getUserData, h]

theorem verifyBotOwnership_false_of_missing {uid bid : Str}
    {st : SecureServer.SecState} (h : mlookup st.bots bid = none) :
    (SecureServer.verifyBotOwnership uid bid st).1 = false := by
  cases hg : mlookup st.userData uid with
  | none => simp [SecureServer.verifyBotOwnership, SecureServer.getUserData,
      hg, h]
  | some d => simp [SecureServer.verifyBotOwnership, SecureServer.getUserData,
      hg, h]

theorem verifyBotOwnership_false_of_other {uid bid : Str} {bot : Bot}
    {st : SecureServer.SecState} (h : mlookup st.bots bid = some bot)
    (hne : bot.userId ≠ uid) :
    (SecureServer.verifyBotOwnership uid bid st).1 = false := by
  cases hg : mlookup st.userData uid with
  | none => simp [SecureServer.verifyBotOwnership, SecureServer.getUserData,
      hg, h, hne]
  | some d => simp [SecureServer.verifyBotOwnership, SecureServer.getUserData,
      hg, h, hne]

/-- C4: the refusal sent when the referenced bot does not exist and the
refusal sent when it exists but belongs to another user are one and the
same reply — an error frame with code 403 and message Bot not found or
access denied — both in the dist draft's handleSubscribe and in the secure
server's handleMessageFrame; nothing in the reply reveals whether the bot
exists. -/
theorem ownership_refusal_indistinguishable
    (u bid : Str) (ws : WsConn) (bot : Bot)
    (stA stB : DistServer.SrvState)
    (sA sB : SecureServer.SecState) (tx : Option Str)
    (hws : ws.userId = some u)
    (hbid : bid ≠ [])
    (hA : mlookup stA.bots bid = none)
    (hB : mlookup stB.bots bid = some bot)
    (hown : bot.userId ≠ u)
    (hsA : mlookup sA.bots bid = none)
    (hsB : mlookup sB.bots bid = some bot) :
    ((DistServer.handleSubscribe stA ws
        ⟨str "subscribe", { FrameData.empty with botId := some bid }⟩).1 =
      (DistServer.handleSubscribe stB ws
        ⟨str "subscribe", { FrameData.empty with botId := some bid }⟩).1 ∧
      (DistServer.handleSubscribe stA ws
        ⟨str "subscribe", { FrameData.empty with botId := some bid }⟩).1 =
        sendOut ws (errorEvent 403 (str "Bot not found or access denied"))) ∧
    ((SecureServer.handleMessageFrame sA ws
        ⟨str "message",
          { FrameData.empty with toId := some bid, text := tx }⟩).1 =
      (SecureServer.handleMessageFrame sB ws
        ⟨str "message",
          { FrameData.empty with toId := some bid, text := tx }⟩).1 ∧
      (SecureServer.handleMessageFrame sA ws
        ⟨str "message",
          { FrameData.empty with toId := some bid, text := tx }⟩).1 =
        sendOut ws (errorEvent 403 (str "Bot not found or access denied"))) := by
  have hf : strFalsy (some bid) = false := by
    cases bid with
    | nil => exact absurd rfl hbid
    | cons a l => rfl
  have eA : (DistServer.handleSubscribe stA ws
      ⟨str "subscribe", { FrameData.empty with botId := some bid }⟩).1 =
      sendOut ws (errorEvent 403 (str "Bot not found or access denied")) := by
    simp [DistServer.handleSubscribe, hws, hA]
  have eB : (DistServer.handleSubscribe stB ws
      ⟨str "subscribe", { FrameData.empty with botId := some bid }⟩).1 =
      sendOut ws (errorEvent 403 (str "Bot not found or access denied")) := by
    simp [DistServer.handleSubscribe, hws, hB, hown]
  have eC : (SecureServer.handleMessageFrame sA ws
      ⟨str "message",
        { FrameData.empty with toId := some bid, text := tx }⟩).1 =
      sendOut ws (errorEvent 403 (str "Bot not found or access denied")) := by
    simp [SecureServer.handleMessageFrame, hws, hf,
      verifyBotOwnership_false_of_missing hsA]
  have eD : (SecureServer.handleMessageFrame sB ws
      ⟨str "message",
        { FrameData.empty with toId := some bid, text := tx }⟩).1 =
      sendOut ws (errorEvent 403 (str "Bot not found or access denied")) := by
    simp [SecureServer.handleMessageFrame, hws, hf,
      verifyBotOwnership_false_of_other hsB hown]
  exact ⟨⟨eA.trans eB.symm, eA⟩, ⟨eC.trans eD.symm, eC⟩⟩

/-- Witness for C4 on concrete states: an empty registry versus one
holding bot b1 owned by u1, queried by u2. -/
theorem ownership_refusal_indistinguishable_witness :
    ((⟨str "c2", some (str "u2"), [], 0, true⟩ : WsConn).userId =
      some (str "u2")) ∧
    ((DistServer.handleSubscribe ⟨[], [], SessionManager.initialState, []⟩
        ⟨str "c2", some (str "u2"), [], 0, true⟩
        ⟨str "subscribe",
          { FrameData.empty with botId := some (str "b1") }⟩).1 =
      (DistServer.handleSubscribe
        ⟨[(str "b1",
            ⟨str "b1", str "u1", str "Clawra", str "openclaw", str "online"⟩)],
          [(str "u1", [str "b1"])], SessionManager.initialState, []⟩
        ⟨str "c2", some (str "u2"), [], 0, true⟩
        ⟨str "subscribe",
          { FrameData.empty with botId := some (str "b1") }⟩).1) :=
  ⟨rfl,
    ((ownership_refusal_indistinguishable (str "u2") (str "b1")
      ⟨str "c2", some (str "u2"), [], 0, true⟩
      ⟨str "b1", str "u1", str "Clawra", str "openclaw", str "online"⟩
      ⟨[], [], SessionManager.initialState, []⟩
      ⟨[(str "b1",
          ⟨str "b1", str "u1", str "Clawra", str "openclaw", str "online"⟩)],
        [(str "u1", [str "b1"])], SessionManager.initialState, []⟩
      ⟨[], [], 0⟩
      ⟨[(str "b1",
          ⟨str "b1", str "u1", str "Clawra", str "openclaw", str "online"⟩)],
        [], 0⟩
      none rfl (by decide) (by decide) (by decide) (by decide) (by decide)
      (by decide)).1).1⟩

end TunnelsToBots
